import Mathlib

/-!
Shallow embedding of `migtate.py`, a one-shot MySQL → PostgreSQL migration
script (class `MySQLToPGMigration` plus `main`).

Modelling conventions:
* `uuid.uuid4()` is modelled as drawing the next value from a fresh-identifier
  supply: a natural-number counter threaded through the run.  Distinct draws
  yield distinct identifiers, which is the guarantee uuid4 provides.
* The registry `self.migrated_records` is a Python dict keyed by the strings
  `f"emp_{id}"`, `f"member_{id}"`, `f"prod_{id}"`, `f"txn_{id}"`.  Since that
  string formatting is injective, the keys are embedded as the inductive type
  `Key` with one constructor per tag, and the dict as a function
  `Key → Option Nat` updated pointwise (exactly a dict's lookup semantics).
* Python truthiness tests (`x or default`, `int(x) if x else d`) on nullable
  numeric fields are embedded over `Option Int`: `none` is SQL NULL, and both
  `none` and `some 0` are falsy.  On nullable string fields `none` and
  `some ""` are falsy.
* Monetary values that the script handles as Python floats only ever pass
  through `float(x)` / literal `0.0`; no float arithmetic is performed, so
  they are embedded as integers.
* `datetime.now()` is an opaque wall-clock value `now : Nat` fixed per run.
* The two database connections are external services.  Their observable
  effects are oracles: per-table failure modes (`Failure`), the list of
  non-system triggers on `invoice_items` returned by the information-schema
  query, and per-trigger ALTER failures.
-/

/-- Python `x or default` on a nullable string: `None` and `""` are falsy. -/
def pyOrStr (o : Option String) (d : String) : String :=
  match o with
  | none => d
  | some s => if s = "" then d else s

/-- Python `int(x) if x else d` / `x or d` on a nullable number: `None` and
`0` are falsy; on a truthy value the `int`/`float` cast returns the value. -/
def pyOrInt (o : Option Int) (d : Int) : Int :=
  match o with
  | none => d
  | some v => if v = 0 then d else v

/-- Keys of `self.migrated_records`: the f-strings `"emp_{id}"`,
`"member_{id}"`, `"prod_{id}"`, `"txn_{id}"`, embedded injectively as an
entity tag applied to the source integer id. -/
inductive Key where
  | emp (id : Nat)
  | member (id : Nat)
  | prod (id : Nat)
  | txn (id : Nat)
deriving DecidableEq, Repr

/-- The entity tag of a registry key. -/
def Key.tag : Key → Nat
  | .emp _ => 0
  | .member _ => 1
  | .prod _ => 2
  | .txn _ => 3

/-- Embeds `self.migrated_records`: an in-memory mapping from registry key to the
generated target identifier. -/
def Registry : Type := Key → Option Nat

/-- Dict write `self.migrated_records[k] = v`. -/
def rput (r : Registry) (k : Key) (v : Nat) : Registry :=
  fun k2 => if k2 = k then some v else r k2

/-- The empty dict `{}` built by `__init__`. -/
def emptyRegistry : Registry := fun _ => none

/-! ### Source rows (MySQL tables) -/

/-- A row of `tbl_karyawan` (fields the script reads). -/
structure KaryawanRow where
  id_karyawan : Nat
  nama_karyawan : String
  email : String
  nomor_telepon : String
deriving DecidableEq, Repr

/-- A row of `tbl_member` (fields the script reads). -/
structure MemberRow where
  id_member : Nat
  nama_member : String
  nomor_telepon : String
  alamat : String
deriving DecidableEq, Repr

/-- A row of `tbl_product` (fields the script reads). -/
structure ProductRow where
  id_product : Nat
  seri : Option String
  nama : Option String
  deskripsi : Option String
  satuan : Option String
  hpp : Option Int
  harga : Option Int
  stok : Option Int
deriving DecidableEq, Repr

/-- A row of `tbl_transaksi` (fields the script reads). -/
structure TransaksiRow where
  id_transaksi : Nat
  id_member : Nat
  tanggal_transaksi : String
  status_transaksi : Option String
  total_pembelian : Option Int
  total_pembayaran : Option Int
  catatan : Option String
  lokasi : Option String
deriving DecidableEq, Repr

/-- A row of `tbl_detail_transaksi` (fields the script reads). -/
structure DetailRow where
  id_transaksi : Nat
  id_product : Nat
  nama_product : String
  qty : Option Int
  harga : Option Int
  subtotal : Option Int
deriving DecidableEq, Repr

/-! ### Target rows (PostgreSQL tables) -/

/-- A row inserted into `public.employees`. -/
structure EmployeeRow where
  id : Nat
  name : String
  email : String
  phone : String
  role : String
  status : String
  rating : Int
  total_jobs_completed : Nat
  avatar_url : Option String
  created_at : Nat
  updated_at : Nat
deriving DecidableEq, Repr

/-- A row inserted into `public.customers`. -/
structure CustomerRow where
  id : Nat
  name : String
  phone : String
  email : Option String
  address : String
  category : String
  payment_terms_days : Nat
  current_outstanding : Int
  blacklisted : Bool
  notes : Option String
  created_at : Nat
  updated_at : Nat
  credit_limit : Int
deriving DecidableEq, Repr

/-- A row inserted into `public.products`. -/
structure ProductOutRow where
  id : Nat
  sku : String
  name : String
  description : Option String
  category : String
  unit : String
  cost_price : Int
  sell_price : Int
  stock : Int
  min_stock_threshold : Nat
  is_service_item : Bool
  is_active : Bool
  created_at : Nat
  updated_at : Nat
  image_url : Option String
deriving DecidableEq, Repr

/-- A row inserted into `public.invoices`. -/
structure InvoiceRow where
  id : Nat
  invoice_number : Nat
  customer_id : Nat
  invoice_date : String
  due_date : Option Nat
  status : String
  payment_status : String
  services_total : Int
  items_total : Int
  discount : Int
  tax : Int
  grand_total : Int
  amount_paid : Int
  notes : Option String
  admin_notes : Option String
  created_by : Option Nat
  created_at : Nat
  updated_at : Nat
  service_address : Option String
deriving DecidableEq, Repr

/-- A row inserted into `public.invoice_items`. -/
structure InvoiceItemRow where
  id : Nat
  invoice_id : Nat
  product_id : Nat
  product_name : String
  product_sku : Option String
  description : Option String
  quantity : Int
  unit_price : Int
  discount : Int
  total_price : Int
  register_as_unit : Bool
  registered_unit_id : Option Nat
  created_at : Nat
  updated_at : Nat
deriving DecidableEq, Repr

/-! ### Row transforms (the tuples appended to `data`) -/

/-- The tuple built for one `tbl_karyawan` row (`migrate_employees`,
lines 57–69 of the script). -/
def mkEmployeeRow (now : Nat) (emp_id : Nat) (e : KaryawanRow) : EmployeeRow :=
  { id := emp_id
    name := e.nama_karyawan
    email := e.email
    phone := e.nomor_telepon
    role := "technician"
    status := "available"
    rating := 0
    total_jobs_completed := 0
    avatar_url := none
    created_at := now
    updated_at := now }

/-- The tuple built for one `tbl_member` row (`migrate_customers`,
lines 100–114). -/
def mkCustomerRow (now : Nat) (cust_id : Nat) (m : MemberRow) : CustomerRow :=
  { id := cust_id
    name := m.nama_member
    phone := m.nomor_telepon
    email := none
    address := m.alamat
    category := "retail"
    payment_terms_days := 0
    current_outstanding := 0
    blacklisted := false
    notes := none
    created_at := now
    updated_at := now
    credit_limit := 0 }

/-- The tuple built for one `tbl_product` row (`migrate_products`,
lines 145–161). -/
def mkProductRow (now : Nat) (prod_id : Nat) (p : ProductRow) : ProductOutRow :=
  { id := prod_id
    sku := pyOrStr p.seri ("SKU-" ++ toString p.id_product)
    name := pyOrStr p.nama "Unnamed Product"
    description := p.deskripsi
    category := "spare_parts"
    unit := pyOrStr p.satuan "pcs"
    cost_price := pyOrInt p.hpp 0
    sell_price := pyOrInt p.harga 0
    stock := pyOrInt p.stok 0
    min_stock_threshold := 5
    is_service_item := false
    is_active := true
    created_at := now
    updated_at := now
    image_url := none }

/-- The tuple built for one kept `tbl_transaksi` row (`migrate_invoices`,
lines 197–217). -/
def mkInvoiceRow (now : Nat) (inv_id : Nat) (cust_id : Nat) (t : TransaksiRow) :
    InvoiceRow :=
  { id := inv_id
    invoice_number := t.id_transaksi
    customer_id := cust_id
    invoice_date := t.tanggal_transaksi
    due_date := none
    status := "completed"
    payment_status := if t.status_transaksi = some "paid" then "paid" else "unpaid"
    services_total := 0
    items_total := pyOrInt t.total_pembelian 0
    discount := 0
    tax := 0
    grand_total := pyOrInt t.total_pembelian 0
    amount_paid := pyOrInt t.total_pembayaran 0
    notes := t.catatan
    admin_notes := none
    created_by := none
    created_at := now
    updated_at := now
    service_address := t.lokasi }

/-- The tuple built for one kept `tbl_detail_transaksi` row
(`migrate_invoice_items`, lines 269–284). -/
def mkInvoiceItemRow (now : Nat) (item_id : Nat) (inv_id : Nat) (prod_id : Nat)
    (d : DetailRow) : InvoiceItemRow :=
  { id := item_id
    invoice_id := inv_id
    product_id := prod_id
    product_name := d.nama_product
    product_sku := none
    description := none
    quantity := pyOrInt d.qty 1
    unit_price := pyOrInt d.harga 0
    discount := 0
    total_price := pyOrInt d.subtotal 0
    register_as_unit := false
    registered_unit_id := none
    created_at := now
    updated_at := now }

/-! ### Transfer loops

Each `for` loop of the script, threading the batch list `data`, the registry
and the fresh-identifier counter.  The counter value used for a row is the
identifier minted by `str(uuid.uuid4())` at that point. -/

/-- The `for emp in employees` loop of `migrate_employees`: mint an id, build
the tuple, record `emp_{id_karyawan} ↦ emp_id`. -/
def employeesLoop (now : Nat) :
    List KaryawanRow → Registry → Nat → List EmployeeRow × Registry × Nat
  | [], r, c => ([], r, c)
  | e :: rest, r, c =>
    let res := employeesLoop now rest (rput r (Key.emp e.id_karyawan) c) (c + 1)
    (mkEmployeeRow now c e :: res.1, res.2.1, res.2.2)

/-- The `for member in members` loop of `migrate_customers`. -/
def customersLoop (now : Nat) :
    List MemberRow → Registry → Nat → List CustomerRow × Registry × Nat
  | [], r, c => ([], r, c)
  | m :: rest, r, c =>
    let res := customersLoop now rest (rput r (Key.member m.id_member) c) (c + 1)
    (mkCustomerRow now c m :: res.1, res.2.1, res.2.2)

/-- The `for prod in products` loop of `migrate_products`. -/
def productsLoop (now : Nat) :
    List ProductRow → Registry → Nat → List ProductOutRow × Registry × Nat
  | [], r, c => ([], r, c)
  | p :: rest, r, c =>
    let res := productsLoop now rest (rput r (Key.prod p.id_product) c) (c + 1)
    (mkProductRow now c p :: res.1, res.2.1, res.2.2)

/-- The `for txn in transactions` loop of `migrate_invoices`.  Note the order
in the script: `inv_id = str(uuid.uuid4())` is executed first (the counter
advances for every row), then the `member_{id_member}` lookup, and on a miss
`continue` skips the row without touching `data` or the registry. -/
def invoicesLoop (now : Nat) :
    List TransaksiRow → Registry → Nat → List InvoiceRow × Registry × Nat
  | [], r, c => ([], r, c)
  | t :: rest, r, c =>
    match r (Key.member t.id_member) with
    | none => invoicesLoop now rest r (c + 1)
    | some cust_id =>
      let res := invoicesLoop now rest (rput r (Key.txn t.id_transaksi) c) (c + 1)
      (mkInvoiceRow now c cust_id t :: res.1, res.2.1, res.2.2)

/-- The `for detail in details` loop of `migrate_invoice_items`.  Both
lookups come first; on a miss `continue` skips the row, and
`str(uuid.uuid4())` is only evaluated inside `data.append`, i.e. for kept
rows.  This loop never writes the registry. -/
def invoiceItemsLoop (now : Nat) (r : Registry) :
    List DetailRow → Nat → List InvoiceItemRow × Nat
  | [], c => ([], c)
  | d :: rest, c =>
    match r (Key.txn d.id_transaksi), r (Key.prod d.id_product) with
    | some inv_id, some prod_id =>
      let res := invoiceItemsLoop now r rest (c + 1)
      (mkInvoiceItemRow now c inv_id prod_id d :: res.1, res.2)
    | none, _ => invoiceItemsLoop now r rest c
    | some _, none => invoiceItemsLoop now r rest c

/-! ### Table transfers with the `try/except` wrapper -/

/-- Where, if anywhere, the external stores raise during one table transfer:
nowhere, during the initial fetch (before any row is transformed), or during
the bulk insert / commit (after the whole transform loop ran). -/
inductive Failure where
  | ok
  | atFetch
  | atInsert
deriving DecidableEq, Repr

/-- Outcome of one table transfer.  `committed` is what the target table
holds after the transfer (empty when the transaction was rolled back);
`rolledBack` and `loggedError` record the `except` branch
(`self.pg_conn.rollback()` and the `✗ Error migrate ...` print); `reg` and
`cnt` are the registry and identifier supply as left in process memory. -/
structure TransferResult (α : Type) where
  committed : List α
  rolledBack : Bool
  loggedError : Bool
  reg : Registry
  cnt : Nat

/-- Embeds `migrate_employees` (lines 44–85): fetch `tbl_karyawan`, transform every
row while recording registry entries, bulk-insert and commit; on an
exception, log and roll back — registry writes made before the exception
survive, committed rows do not. -/
def migrate_employees (now : Nat) (emps : List KaryawanRow) (f : Failure)
    (r : Registry) (c : Nat) : TransferResult EmployeeRow :=
  match f with
  | .atFetch => ⟨[], true, true, r, c⟩
  | .atInsert =>
    let res := employeesLoop now emps r c
    ⟨[], true, true, res.2.1, res.2.2⟩
  | .ok =>
    let res := employeesLoop now emps r c
    ⟨res.1, false, false, res.2.1, res.2.2⟩

/-- Embeds `migrate_customers` (lines 87–130), same shape over `tbl_member`. -/
def migrate_customers (now : Nat) (mems : List MemberRow) (f : Failure)
    (r : Registry) (c : Nat) : TransferResult CustomerRow :=
  match f with
  | .atFetch => ⟨[], true, true, r, c⟩
  | .atInsert =>
    let res := customersLoop now mems r c
    ⟨[], true, true, res.2.1, res.2.2⟩
  | .ok =>
    let res := customersLoop now mems r c
    ⟨res.1, false, false, res.2.1, res.2.2⟩

/-- Embeds `migrate_products` (lines 132–177), same shape over `tbl_product`. -/
def migrate_products (now : Nat) (prods : List ProductRow) (f : Failure)
    (r : Registry) (c : Nat) : TransferResult ProductOutRow :=
  match f with
  | .atFetch => ⟨[], true, true, r, c⟩
  | .atInsert =>
    let res := productsLoop now prods r c
    ⟨[], true, true, res.2.1, res.2.2⟩
  | .ok =>
    let res := productsLoop now prods r c
    ⟨res.1, false, false, res.2.1, res.2.2⟩

/-- Embeds `migrate_invoices` (lines 179–233), same shape over `tbl_transaksi`,
with the per-row `member_{id}` lookup and silent skip. -/
def migrate_invoices (now : Nat) (txns : List TransaksiRow) (f : Failure)
    (r : Registry) (c : Nat) : TransferResult InvoiceRow :=
  match f with
  | .atFetch => ⟨[], true, true, r, c⟩
  | .atInsert =>
    let res := invoicesLoop now txns r c
    ⟨[], true, true, res.2.1, res.2.2⟩
  | .ok =>
    let res := invoicesLoop now txns r c
    ⟨res.1, false, false, res.2.1, res.2.2⟩

/-! ### `migrate_invoice_items` with constraint/trigger handling -/

/-- The `for trigger in triggers` disable loop (lines 255–259): each
`ALTER TABLE ... DISABLE TRIGGER` is attempted in order; an individual
failure (`disableFails t = true`) is swallowed by `except: pass`, leaving
that trigger's state unchanged.  `en` maps a trigger name to whether it is
currently enabled. -/
def disableTriggersLoop (disableFails : String → Bool) :
    List String → (String → Bool) → String → Bool
  | [], en => en
  | t :: ts, en =>
    disableTriggersLoop disableFails ts
      (if disableFails t then en else fun x => if x = t then false else en x)

/-- The `for trigger in triggers` re-enable loop (lines 297–301), with the
same swallowed per-trigger failures. -/
def enableTriggersLoop (enableFails : String → Bool) :
    List String → (String → Bool) → String → Bool
  | [], en => en
  | t :: ts, en =>
    enableTriggersLoop enableFails ts
      (if enableFails t then en else fun x => if x = t then true else en x)

/-- Outcome of `migrate_invoice_items`.  Besides the fields of a
`TransferResult`, it records the constraint/trigger bookkeeping:
`constraintsDeferred` — whether `SET CONSTRAINTS ALL DEFERRED` ran in this
transaction; `insertIssued` — whether the bulk insert statement was issued
(the script guards it with `if data:`); `enabledAtInsert` — each trigger's
enabled state at the point the bulk insert would run; `enabledAfter` — each
trigger's enabled state when the transfer returns. -/
structure ItemsResult where
  committed : List InvoiceItemRow
  rolledBack : Bool
  loggedError : Bool
  cnt : Nat
  constraintsDeferred : Bool
  insertIssued : Bool
  enabledAtInsert : String → Bool
  enabledAfter : String → Bool

/-- Embeds `migrate_invoice_items` (lines 235–308): fetch `tbl_detail_transaksi`,
defer constraints, best-effort-disable each non-system trigger on
`public.invoice_items` (the list `triggers` is what the information-schema
query returned), transform with per-row lookups, bulk-insert only when the
batch is non-empty, best-effort re-enable the triggers, commit.  All
triggers start enabled.  An exception at the bulk insert jumps to the
`except` branch: the re-enable loop does not run and the transaction is
rolled back. -/
def migrate_invoice_items (now : Nat) (details : List DetailRow)
    (triggers : List String) (disableFails enableFails : String → Bool)
    (f : Failure) (r : Registry) (c : Nat) : ItemsResult :=
  match f with
  | .atFetch =>
    ⟨[], true, true, c, false, false, fun _ => true, fun _ => true⟩
  | .atInsert =>
    let en1 := disableTriggersLoop disableFails triggers (fun _ => true)
    let res := invoiceItemsLoop now r details c
    ⟨[], true, true, res.2, true, !res.1.isEmpty, en1, en1⟩
  | .ok =>
    let en1 := disableTriggersLoop disableFails triggers (fun _ => true)
    let res := invoiceItemsLoop now r details c
    let en2 := enableTriggersLoop enableFails triggers en1
    ⟨res.1, false, false, res.2, true, !res.1.isEmpty, en1, en2⟩

/-! ### The orchestrator `main` -/

/-- The five source tables, as the two `SELECT *` interfaces expose them. -/
structure SourceDB where
  tbl_karyawan : List KaryawanRow
  tbl_member : List MemberRow
  tbl_product : List ProductRow
  tbl_transaksi : List TransaksiRow
  tbl_detail_transaksi : List DetailRow

/-- Oracle for everything the external stores decide during one run:
whether `connect()` succeeds, where each table transfer's exception (if
any) strikes, the non-system triggers on `invoice_items`, which trigger
toggles fail, and the wall clock. -/
structure Oracles where
  connOk : Bool
  fEmployees : Failure
  fCustomers : Failure
  fProducts : Failure
  fInvoices : Failure
  fItems : Failure
  triggers : List String
  disableFails : String → Bool
  enableFails : String → Bool
  now : Nat

/-- Observable outcome of one process run of the script. -/
structure RunResult where
  connected : Bool
  employees : Option (TransferResult EmployeeRow)
  customers : Option (TransferResult CustomerRow)
  products : Option (TransferResult ProductOutRow)
  invoices : Option (TransferResult InvoiceRow)
  invoice_items : Option ItemsResult
  closed : Bool
  exitCode : Nat

/-- The employees transfer as executed by `main`: first transfer, starting
from the empty registry and a fresh identifier supply. -/
def runEmployees (db : SourceDB) (o : Oracles) : TransferResult EmployeeRow :=
  migrate_employees o.now db.tbl_karyawan o.fEmployees emptyRegistry 0

/-- The customers transfer as executed by `main`, after employees. -/
def runCustomers (db : SourceDB) (o : Oracles) : TransferResult CustomerRow :=
  migrate_customers o.now db.tbl_member o.fCustomers
    (runEmployees db o).reg (runEmployees db o).cnt

/-- The products transfer as executed by `main`, after customers. -/
def runProducts (db : SourceDB) (o : Oracles) : TransferResult ProductOutRow :=
  migrate_products o.now db.tbl_product o.fProducts
    (runCustomers db o).reg (runCustomers db o).cnt

/-- The invoices transfer as executed by `main`, after products. -/
def runInvoices (db : SourceDB) (o : Oracles) : TransferResult InvoiceRow :=
  migrate_invoices o.now db.tbl_transaksi o.fInvoices
    (runProducts db o).reg (runProducts db o).cnt

/-- The invoice-items transfer as executed by `main`, after invoices. -/
def runItems (db : SourceDB) (o : Oracles) : ItemsResult :=
  migrate_invoice_items o.now db.tbl_detail_transaksi o.triggers
    o.disableFails o.enableFails o.fItems
    (runInvoices db o).reg (runInvoices db o).cnt

/-- Embeds `main` (lines 317–335) together with `connect` (lines 30–42): on a
connection failure `connect` calls `sys.exit(1)` before any transfer runs;
otherwise the five transfers run unconditionally in this fixed order,
sharing the registry (initially `{}`) and the identifier supply, then
`close()` runs and the process exits normally (status 0). -/
def mainRun (db : SourceDB) (o : Oracles) : RunResult :=
  if o.connOk then
    { connected := true, employees := some (runEmployees db o),
      customers := some (runCustomers db o),
      products := some (runProducts db o),
      invoices := some (runInvoices db o),
      invoice_items := some (runItems db o),
      closed := true, exitCode := 0 }
  else
    { connected := false, employees := none, customers := none,
      products := none, invoices := none, invoice_items := none,
      closed := false, exitCode := 1 }

/-! ### Reachable registry states -/

/-- The registry and counter handed to table number `i` (0 = employees, …,
4 = invoice items) during a run of `mainRun db o`. -/
def stateBefore (db : SourceDB) (o : Oracles) : Nat → Registry × Nat
  | 0 => (emptyRegistry, 0)
  | 1 => ((runEmployees db o).reg, (runEmployees db o).cnt)
  | 2 => ((runCustomers db o).reg, (runCustomers db o).cnt)
  | 3 => ((runProducts db o).reg, (runProducts db o).cnt)
  | _ => ((runInvoices db o).reg, (runInvoices db o).cnt)

/-- The registry state reached after table `i`'s loop has processed its
first `k` rows: the states a run of `main db o` passes through are exactly
the `midReg db o i k` (the loop over a list passes through the loop states
of its prefixes, and `invoiceItemsLoop` never writes the registry). -/
def midReg (db : SourceDB) (o : Oracles) (i : Nat) (k : Nat) : Registry :=
  let s := stateBefore db o i
  match i with
  | 0 => (employeesLoop o.now (db.tbl_karyawan.take k) s.1 s.2).2.1
  | 1 => (customersLoop o.now (db.tbl_member.take k) s.1 s.2).2.1
  | 2 => (productsLoop o.now (db.tbl_product.take k) s.1 s.2).2.1
  | 3 => (invoicesLoop o.now (db.tbl_transaksi.take k) s.1 s.2).2.1
  | _ => s.1

/-! ## Verification

Run invariant on the registry and the identifier supply, and per-loop
lemmas about counters, identifiers and registry contents. -/

/-- Invariant tying the registry to the fresh-identifier supply: every
registered identifier was already drawn from the supply (is below the
counter), and no identifier is registered under two different keys. -/
def RegInv (r : Registry) (c : Nat) : Prop :=
  (∀ k v, r k = some v → v < c) ∧
  (∀ k1 k2 v, r k1 = some v → r k2 = some v → k1 = k2)

theorem regInv_empty : RegInv emptyRegistry 0 := by
  constructor
  · intro k v h
    simp [emptyRegistry] at h
  · intro k1 k2 v h
    simp [emptyRegistry] at h

theorem regInv_mono {r : Registry} {c c2 : Nat} (h : RegInv r c) (hc : c ≤ c2) :
    RegInv r c2 := by
  refine ⟨fun k v hv => lt_of_lt_of_le (h.1 k v hv) hc, h.2⟩

theorem regInv_rput {r : Registry} {c : Nat} (h : RegInv r c) (k : Key) :
    RegInv (rput r k c) (c + 1) := by
  constructor
  · intro k2 v hv
    by_cases hk : k2 = k
    · simp [rput, hk] at hv
      omega
    · simp [rput, hk] at hv
      exact lt_trans (h.1 k2 v hv) (Nat.lt_succ_self c)
  · intro k1 k2 v h1 h2
    by_cases hk1 : k1 = k <;> by_cases hk2 : k2 = k
    · rw [hk1, hk2]
    · simp [rput, hk1] at h1
      simp [rput, hk2] at h2
      exact absurd (h.1 k2 v h2) (by omega)
    · simp [rput, hk1] at h1
      simp [rput, hk2] at h2
      exact absurd (h.1 k1 v h1) (by omega)
    · simp [rput, hk1] at h1
      simp [rput, hk2] at h2
      exact h.2 k1 k2 v h1 h2

theorem employeesLoop_regInv (now : Nat) (l : List KaryawanRow) :
    ∀ r c, RegInv r c →
      RegInv (employeesLoop now l r c).2.1 (employeesLoop now l r c).2.2 := by
  induction l with
  | nil => intro r c h; simpa [employeesLoop] using h
  | cons e rest ih =>
    intro r c h
    simpa [employeesLoop] using ih _ _ (regInv_rput h _)

theorem customersLoop_regInv (now : Nat) (l : List MemberRow) :
    ∀ r c, RegInv r c →
      RegInv (customersLoop now l r c).2.1 (customersLoop now l r c).2.2 := by
  induction l with
  | nil => intro r c h; simpa [customersLoop] using h
  | cons m rest ih =>
    intro r c h
    simpa [customersLoop] using ih _ _ (regInv_rput h _)

theorem productsLoop_regInv (now : Nat) (l : List ProductRow) :
    ∀ r c, RegInv r c →
      RegInv (productsLoop now l r c).2.1 (productsLoop now l r c).2.2 := by
  induction l with
  | nil => intro r c h; simpa [productsLoop] using h
  | cons p rest ih =>
    intro r c h
    simpa [productsLoop] using ih _ _ (regInv_rput h _)

theorem invoicesLoop_regInv (now : Nat) (l : List TransaksiRow) :
    ∀ r c, RegInv r c →
      RegInv (invoicesLoop now l r c).2.1 (invoicesLoop now l r c).2.2 := by
  induction l with
  | nil => intro r c h; simpa [invoicesLoop] using h
  | cons t rest ih =>
    intro r c h
    simp only [invoicesLoop]
    cases hm : r (Key.member t.id_member) with
    | none => exact ih _ _ (regInv_mono h (Nat.le_succ c))
    | some cid => simpa using ih _ _ (regInv_rput h _)

/-! ### Counter lemmas: each loop draws one identifier per processed row
(`invoiceItemsLoop` only per kept row). -/

theorem employeesLoop_cnt (now : Nat) (l : List KaryawanRow) :
    ∀ r c, (employeesLoop now l r c).2.2 = c + l.length := by
  induction l with
  | nil => intro r c; simp [employeesLoop]
  | cons e rest ih =>
    intro r c
    simp [employeesLoop, ih]
    omega

theorem customersLoop_cnt (now : Nat) (l : List MemberRow) :
    ∀ r c, (customersLoop now l r c).2.2 = c + l.length := by
  induction l with
  | nil => intro r c; simp [customersLoop]
  | cons m rest ih =>
    intro r c
    simp [customersLoop, ih]
    omega

theorem productsLoop_cnt (now : Nat) (l : List ProductRow) :
    ∀ r c, (productsLoop now l r c).2.2 = c + l.length := by
  induction l with
  | nil => intro r c; simp [productsLoop]
  | cons p rest ih =>
    intro r c
    simp [productsLoop, ih]
    omega

theorem invoicesLoop_cnt (now : Nat) (l : List TransaksiRow) :
    ∀ r c, (invoicesLoop now l r c).2.2 = c + l.length := by
  induction l with
  | nil => intro r c; simp [invoicesLoop]
  | cons t rest ih =>
    intro r c
    simp only [invoicesLoop]
    cases hm : r (Key.member t.id_member) with
    | none => simp [ih]; omega
    | some cid => simp [ih]; omega

theorem invoiceItemsLoop_cnt (now : Nat) (r : Registry) (l : List DetailRow) :
    ∀ c, c ≤ (invoiceItemsLoop now r l c).2 ∧
      (invoiceItemsLoop now r l c).2 ≤ c + l.length := by
  induction l with
  | nil => intro c; simp [invoiceItemsLoop]
  | cons d rest ih =>
    intro c
    simp only [invoiceItemsLoop]
    cases h1 : r (Key.txn d.id_transaksi) with
    | none =>
      have := ih c
      simp only [List.length_cons]
      omega
    | some iv =>
      cases h2 : r (Key.prod d.id_product) with
      | none =>
        have := ih c
        simp only [List.length_cons]
        omega
      | some pv =>
        have := ih (c + 1)
        simp only [List.length_cons]
        omega

/-! ### Identifiers attached to the emitted rows -/

theorem employeesLoop_ids (now : Nat) (l : List KaryawanRow) :
    ∀ r c, (employeesLoop now l r c).1.map (·.id) = List.range' c l.length := by
  induction l with
  | nil => intro r c; simp [employeesLoop]
  | cons e rest ih =>
    intro r c
    simp [employeesLoop, ih, List.range', mkEmployeeRow]

theorem customersLoop_ids (now : Nat) (l : List MemberRow) :
    ∀ r c, (customersLoop now l r c).1.map (·.id) = List.range' c l.length := by
  induction l with
  | nil => intro r c; simp [customersLoop]
  | cons m rest ih =>
    intro r c
    simp [customersLoop, ih, List.range', mkCustomerRow]

theorem productsLoop_ids (now : Nat) (l : List ProductRow) :
    ∀ r c, (productsLoop now l r c).1.map (·.id) = List.range' c l.length := by
  induction l with
  | nil => intro r c; simp [productsLoop]
  | cons p rest ih =>
    intro r c
    simp [productsLoop, ih, List.range', mkProductRow]

/-- A strictly increasing run of identifiers drawn from the half-open
supply interval `[a, b)`. -/
def IdsSeg (xs : List Nat) (a b : Nat) : Prop :=
  xs.Pairwise (· < ·) ∧ ∀ x ∈ xs, a ≤ x ∧ x < b

theorem idsSeg_nil (a b : Nat) : IdsSeg [] a b := by
  exact ⟨List.Pairwise.nil, by simp⟩

theorem idsSeg_weaken {xs : List Nat} {a b a2 b2 : Nat} (h : IdsSeg xs a b)
    (ha : a2 ≤ a) (hb : b ≤ b2) : IdsSeg xs a2 b2 := by
  refine ⟨h.1, fun x hx => ?_⟩
  have := h.2 x hx
  omega

theorem idsSeg_append {xs ys : List Nat} {a b c : Nat} (h1 : IdsSeg xs a b)
    (h2 : IdsSeg ys b c) (hab : a ≤ b) (hbc : b ≤ c) : IdsSeg (xs ++ ys) a c := by
  constructor
  · rw [List.pairwise_append]
    refine ⟨h1.1, h2.1, fun x hx y hy => ?_⟩
    have hxb := h1.2 x hx
    have hyb := h2.2 y hy
    omega
  · intro x hx
    rcases List.mem_append.mp hx with hx | hx
    · have := h1.2 x hx
      omega
    · have := h2.2 x hx
      omega

theorem idsSeg_nodup {xs : List Nat} {a b : Nat} (h : IdsSeg xs a b) :
    xs.Nodup :=
  h.1.imp (fun hlt => Nat.ne_of_lt hlt)

theorem idsSeg_range' (a n : Nat) : IdsSeg (List.range' a n) a (a + n) := by
  refine ⟨List.pairwise_lt_range' a n, fun x hx => ?_⟩
  exact List.mem_range'_1.mp hx

theorem invoicesLoop_idsSeg (now : Nat) (l : List TransaksiRow) :
    ∀ r c, IdsSeg ((invoicesLoop now l r c).1.map (·.id)) c (c + l.length) := by
  induction l with
  | nil => intro r c; simpa [invoicesLoop] using idsSeg_nil c c
  | cons t rest ih =>
    intro r c
    simp only [invoicesLoop, List.length_cons]
    cases hm : r (Key.member t.id_member) with
    | none =>
      exact idsSeg_weaken (ih r (c + 1)) (Nat.le_succ c) (by omega)
    | some cid =>
      have hrest := ih (rput r (Key.txn t.id_transaksi) c) (c + 1)
      simp only [List.map_cons]
      constructor
      · refine List.Pairwise.cons (fun x hx => ?_) hrest.1
        have := hrest.2 x hx
        simp [mkInvoiceRow]
        omega
      · intro x hx
        rcases List.mem_cons.mp hx with hx | hx
        · simp [mkInvoiceRow] at hx
          omega
        · have := hrest.2 x hx
          omega

theorem invoiceItemsLoop_idsSeg (now : Nat) (r : Registry) (l : List DetailRow) :
    ∀ c, IdsSeg ((invoiceItemsLoop now r l c).1.map (·.id)) c (c + l.length) := by
  induction l with
  | nil => intro c; simpa [invoiceItemsLoop] using idsSeg_nil c c
  | cons d rest ih =>
    intro c
    simp only [invoiceItemsLoop, List.length_cons]
    cases h1 : r (Key.txn d.id_transaksi) with
    | none => exact idsSeg_weaken (ih c) (le_refl c) (by omega)
    | some iv =>
      cases h2 : r (Key.prod d.id_product) with
      | none => exact idsSeg_weaken (ih c) (le_refl c) (by omega)
      | some pv =>
        have hrest := ih (c + 1)
        simp only [List.map_cons]
        constructor
        · refine List.Pairwise.cons (fun x hx => ?_) hrest.1
          have := hrest.2 x hx
          simp [mkInvoiceItemRow]
          omega
        · intro x hx
          rcases List.mem_cons.mp hx with hx | hx
          · simp [mkInvoiceItemRow] at hx
            omega
          · have := hrest.2 x hx
            omega

/-! ### Registry lookups across the loops -/

theorem rput_other {r : Registry} {k k2 : Key} {v : Nat} (h : k2 ≠ k) :
    rput r k v k2 = r k2 := by
  simp [rput, h]

theorem rput_same (r : Registry) (k : Key) (v : Nat) :
    rput r k v k = some v := by
  simp [rput]

theorem employeesLoop_reg_other (now : Nat) (l : List KaryawanRow) :
    ∀ r c (k : Key), (∀ e ∈ l, k ≠ Key.emp e.id_karyawan) →
      (employeesLoop now l r c).2.1 k = r k := by
  induction l with
  | nil => intro r c k _; simp [employeesLoop]
  | cons e rest ih =>
    intro r c k hk
    simp only [employeesLoop]
    rw [ih _ _ _ (fun e2 he2 => hk e2 (List.mem_cons_of_mem e he2))]
    exact rput_other (hk e (List.mem_cons_self e rest))

theorem customersLoop_reg_other (now : Nat) (l : List MemberRow) :
    ∀ r c (k : Key), (∀ m ∈ l, k ≠ Key.member m.id_member) →
      (customersLoop now l r c).2.1 k = r k := by
  induction l with
  | nil => intro r c k _; simp [customersLoop]
  | cons m rest ih =>
    intro r c k hk
    simp only [customersLoop]
    rw [ih _ _ _ (fun m2 hm2 => hk m2 (List.mem_cons_of_mem m hm2))]
    exact rput_other (hk m (List.mem_cons_self m rest))

theorem productsLoop_reg_other (now : Nat) (l : List ProductRow) :
    ∀ r c (k : Key), (∀ p ∈ l, k ≠ Key.prod p.id_product) →
      (productsLoop now l r c).2.1 k = r k := by
  induction l with
  | nil => intro r c k _; simp [productsLoop]
  | cons p rest ih =>
    intro r c k hk
    simp only [productsLoop]
    rw [ih _ _ _ (fun p2 hp2 => hk p2 (List.mem_cons_of_mem p hp2))]
    exact rput_other (hk p (List.mem_cons_self p rest))

theorem invoicesLoop_reg_other (now : Nat) (l : List TransaksiRow) :
    ∀ r c (k : Key), (∀ t ∈ l, k ≠ Key.txn t.id_transaksi) →
      (invoicesLoop now l r c).2.1 k = r k := by
  induction l with
  | nil => intro r c k _; simp [invoicesLoop]
  | cons t rest ih =>
    intro r c k hk
    simp only [invoicesLoop]
    cases hm : r (Key.member t.id_member) with
    | none => exact ih _ _ _ (fun t2 ht2 => hk t2 (List.mem_cons_of_mem t ht2))
    | some cid =>
      simp only []
      rw [ih _ _ _ (fun t2 ht2 => hk t2 (List.mem_cons_of_mem t ht2))]
      exact rput_other (hk t (List.mem_cons_self t rest))

theorem customersLoop_reg_some_mono (now : Nat) (l : List MemberRow) :
    ∀ r c (k : Key) (v : Nat), r k = some v →
      ∃ w, (customersLoop now l r c).2.1 k = some w := by
  induction l with
  | nil => intro r c k v h; exact ⟨v, by simpa [customersLoop] using h⟩
  | cons m rest ih =>
    intro r c k v h
    simp only [customersLoop]
    by_cases hk : k = Key.member m.id_member
    · exact ih _ _ _ c (by rw [hk, rput_same])
    · exact ih _ _ _ v (by rw [rput_other hk]; exact h)

/-- Every member processed by the customers loop has a registry entry
afterwards (later duplicates may overwrite, but an entry is always
present). -/
theorem customersLoop_reg_mem (now : Nat) (l : List MemberRow) :
    ∀ r c, ∀ m ∈ l, ∃ v,
      (customersLoop now l r c).2.1 (Key.member m.id_member) = some v := by
  induction l with
  | nil => intro r c m hm; cases hm
  | cons m0 rest ih =>
    intro r c m hm
    simp only [customersLoop]
    rcases List.mem_cons.mp hm with hm | hm
    · subst hm
      exact customersLoop_reg_some_mono now rest _ _ _ c (rput_same r _ c)
    · exact ih _ _ m hm

/-! ### The registry entry written for each row (C1) -/

theorem employeesLoop_zip (now : Nat) (l : List KaryawanRow) :
    ∀ r c, (l.map (·.id_karyawan)).Nodup →
      ∀ p ∈ l.zip (employeesLoop now l r c).1,
        (employeesLoop now l r c).2.1 (Key.emp p.1.id_karyawan) = some p.2.id := by
  induction l with
  | nil => intro r c _ p hp; simp [employeesLoop] at hp
  | cons e rest ih =>
    intro r c hnd p hp
    have hnd2 := hnd
    rw [List.map_cons, List.nodup_cons] at hnd2
    simp only [employeesLoop] at hp ⊢
    rcases List.mem_cons.mp hp with hp | hp
    · subst hp
      rw [employeesLoop_reg_other now rest _ _ _ ?_]
      · exact rput_same r _ c
      · intro e2 he2 habs
        exact hnd2.1 (by
          rw [Key.emp.injEq] at habs
          rw [habs]
          exact List.mem_map_of_mem (·.id_karyawan) he2)
    · exact ih _ _ hnd2.2 p hp

theorem customersLoop_zip (now : Nat) (l : List MemberRow) :
    ∀ r c, (l.map (·.id_member)).Nodup →
      ∀ p ∈ l.zip (customersLoop now l r c).1,
        (customersLoop now l r c).2.1 (Key.member p.1.id_member) = some p.2.id := by
  induction l with
  | nil => intro r c _ p hp; simp [customersLoop] at hp
  | cons m rest ih =>
    intro r c hnd p hp
    have hnd2 := hnd
    rw [List.map_cons, List.nodup_cons] at hnd2
    simp only [customersLoop] at hp ⊢
    rcases List.mem_cons.mp hp with hp | hp
    · subst hp
      rw [customersLoop_reg_other now rest _ _ _ ?_]
      · exact rput_same r _ c
      · intro m2 hm2 habs
        exact hnd2.1 (by
          rw [Key.member.injEq] at habs
          rw [habs]
          exact List.mem_map_of_mem (·.id_member) hm2)
    · exact ih _ _ hnd2.2 p hp

theorem productsLoop_zip (now : Nat) (l : List ProductRow) :
    ∀ r c, (l.map (·.id_product)).Nodup →
      ∀ p ∈ l.zip (productsLoop now l r c).1,
        (productsLoop now l r c).2.1 (Key.prod p.1.id_product) = some p.2.id := by
  induction l with
  | nil => intro r c _ p hp; simp [productsLoop] at hp
  | cons p0 rest ih =>
    intro r c hnd p hp
    have hnd2 := hnd
    rw [List.map_cons, List.nodup_cons] at hnd2
    simp only [productsLoop] at hp ⊢
    rcases List.mem_cons.mp hp with hp | hp
    · subst hp
      rw [productsLoop_reg_other now rest _ _ _ ?_]
      · exact rput_same r _ c
      · intro p2 hp2 habs
        exact hnd2.1 (by
          rw [Key.prod.injEq] at habs
          rw [habs]
          exact List.mem_map_of_mem (·.id_product) hp2)
    · exact ih _ _ hnd2.2 p hp

/-! ### Which rows the dependent loops emit -/

/-- A transaction whose member mapping is present is emitted by the
invoices loop, referencing exactly the registered customer identifier.
(The evolving registry only gains `txn` keys, so member lookups are
stable across the loop.) -/
theorem invoicesLoop_emits (now : Nat) (l : List TransaksiRow) :
    ∀ r c, ∀ t ∈ l, ∀ v, r (Key.member t.id_member) = some v →
      ∃ row ∈ (invoicesLoop now l r c).1,
        row.customer_id = v ∧ row.invoice_number = t.id_transaksi := by
  induction l with
  | nil => intro r c t ht; cases ht
  | cons t0 rest ih =>
    intro r c t ht v hv
    rcases List.mem_cons.mp ht with ht | ht
    · subst ht
      refine ⟨mkInvoiceRow now c v t, ?_, rfl, rfl⟩
      simp only [invoicesLoop, hv]
      exact List.mem_cons_self _ _
    · simp only [invoicesLoop]
      cases hm : r (Key.member t0.id_member) with
      | none => exact ih _ _ t ht v hv
      | some cid =>
        have hv2 : rput r (Key.txn t0.id_transaksi) c (Key.member t.id_member)
            = some v := by
          rw [rput_other (by simp)]
          exact hv
        rcases ih _ (c + 1) t ht v hv2 with ⟨row, hrow, h1, h2⟩
        exact ⟨row, List.mem_cons_of_mem _ hrow, h1, h2⟩

/-- Every row the invoices loop emits is the transform of one source
transaction (with some minted identifier and some registry value). -/
theorem invoicesLoop_mem (now : Nat) (l : List TransaksiRow) :
    ∀ r c, ∀ row ∈ (invoicesLoop now l r c).1,
      ∃ t ∈ l, ∃ idv cid, row = mkInvoiceRow now idv cid t := by
  induction l with
  | nil => intro r c row hrow; simp [invoicesLoop] at hrow
  | cons t0 rest ih =>
    intro r c row hrow
    simp only [invoicesLoop] at hrow
    cases hm : r (Key.member t0.id_member) with
    | none =>
      rw [hm] at hrow
      rcases ih _ _ row hrow with ⟨t, ht, idv, cid, he⟩
      exact ⟨t, List.mem_cons_of_mem _ ht, idv, cid, he⟩
    | some cid0 =>
      rw [hm] at hrow
      rcases List.mem_cons.mp hrow with hrow | hrow
      · exact ⟨t0, List.mem_cons_self _ _, c, cid0, hrow⟩
      · rcases ih _ _ row hrow with ⟨t, ht, idv, cid, he⟩
        exact ⟨t, List.mem_cons_of_mem _ ht, idv, cid, he⟩

/-- Every row the invoice-items loop emits is the transform of one source
detail row. -/
theorem invoiceItemsLoop_mem (now : Nat) (r : Registry) (l : List DetailRow) :
    ∀ c, ∀ row ∈ (invoiceItemsLoop now r l c).1,
      ∃ d ∈ l, ∃ idv iv pv, row = mkInvoiceItemRow now idv iv pv d := by
  induction l with
  | nil => intro c row hrow; simp [invoiceItemsLoop] at hrow
  | cons d0 rest ih =>
    intro c row hrow
    simp only [invoiceItemsLoop] at hrow
    cases h1 : r (Key.txn d0.id_transaksi) with
    | none =>
      rw [h1] at hrow
      rcases ih _ row hrow with ⟨d, hd, idv, iv, pv, he⟩
      exact ⟨d, List.mem_cons_of_mem _ hd, idv, iv, pv, he⟩
    | some iv0 =>
      rw [h1] at hrow
      cases h2 : r (Key.prod d0.id_product) with
      | none =>
        rw [h2] at hrow
        rcases ih _ row hrow with ⟨d, hd, idv, iv, pv, he⟩
        exact ⟨d, List.mem_cons_of_mem _ hd, idv, iv, pv, he⟩
      | some pv0 =>
        rw [h2] at hrow
        rcases List.mem_cons.mp hrow with hrow | hrow
        · exact ⟨d0, List.mem_cons_self _ _, c, iv0, pv0, hrow⟩
        · rcases ih _ row hrow with ⟨d, hd, idv, iv, pv, he⟩
          exact ⟨d, List.mem_cons_of_mem _ hd, idv, iv, pv, he⟩

/-- Skipped-only runs of the invoices loop: if no transaction's member is
mapped, nothing is emitted and the registry is untouched, but the counter
still advances once per row (line 191 of the script mints the identifier
before the lookup). -/
theorem invoicesLoop_all_skipped (now : Nat) (l : List TransaksiRow) :
    ∀ r c, (∀ t ∈ l, r (Key.member t.id_member) = none) →
      (invoicesLoop now l r c).1 = [] ∧
      (∀ k, (invoicesLoop now l r c).2.1 k = r k) ∧
      (invoicesLoop now l r c).2.2 = c + l.length := by
  induction l with
  | nil => intro r c _; simp [invoicesLoop]
  | cons t0 rest ih =>
    intro r c hall
    have h0 := hall t0 (List.mem_cons_self t0 rest)
    simp only [invoicesLoop, h0]
    have := ih r (c + 1) (fun t ht => hall t (List.mem_cons_of_mem t0 ht))
    refine ⟨this.1, this.2.1, ?_⟩
    rw [this.2.2]
    simp
    omega

/-! ### Trigger toggling -/

theorem disableTriggersLoop_false_mono (df : String → Bool) (ts : List String) :
    ∀ en t, en t = false → disableTriggersLoop df ts en t = false := by
  induction ts with
  | nil => intro en t h; simpa [disableTriggersLoop] using h
  | cons t0 rest ih =>
    intro en t h
    simp only [disableTriggersLoop]
    cases hdf : df t0 with
    | true =>
      rw [if_pos rfl]
      exact ih _ _ h
    | false =>
      rw [if_neg (by simp)]
      refine ih _ _ ?_
      by_cases ht : t = t0 <;> simp [ht, h]

theorem disableTriggersLoop_mem (df : String → Bool) (ts : List String) :
    ∀ en t, t ∈ ts → df t = false → disableTriggersLoop df ts en t = false := by
  induction ts with
  | nil => intro en t ht; cases ht
  | cons t0 rest ih =>
    intro en t ht hdf
    rcases List.mem_cons.mp ht with ht | ht
    · subst ht
      simp only [disableTriggersLoop, hdf]
      exact disableTriggersLoop_false_mono df rest _ t (by simp)
    · simp only [disableTriggersLoop]
      by_cases hdf0 : df t0 <;> simp only [hdf0] <;> exact ih _ _ ht hdf

theorem enableTriggersLoop_true_mono (ef : String → Bool) (ts : List String) :
    ∀ en t, en t = true → enableTriggersLoop ef ts en t = true := by
  induction ts with
  | nil => intro en t h; simpa [enableTriggersLoop] using h
  | cons t0 rest ih =>
    intro en t h
    simp only [enableTriggersLoop]
    cases hef : ef t0 with
    | true =>
      rw [if_pos rfl]
      exact ih _ _ h
    | false =>
      rw [if_neg (by simp)]
      refine ih _ _ ?_
      by_cases ht : t = t0 <;> simp [ht, h]

theorem enableTriggersLoop_mem (ef : String → Bool) (ts : List String) :
    ∀ en t, t ∈ ts → ef t = false → enableTriggersLoop ef ts en t = true := by
  induction ts with
  | nil => intro en t ht; cases ht
  | cons t0 rest ih =>
    intro en t ht hef
    rcases List.mem_cons.mp ht with ht | ht
    · subst ht
      simp only [enableTriggersLoop, hef]
      exact enableTriggersLoop_true_mono ef rest _ t (by simp)
    · simp only [enableTriggersLoop]
      by_cases hef0 : ef t0 <;> simp only [hef0] <;> exact ih _ _ ht hef

/-! ### Transfer-level lemmas -/

theorem migrate_employees_failed (now : Nat) (l : List KaryawanRow)
    (f : Failure) (r : Registry) (c : Nat) (hf : f ≠ .ok) :
    (migrate_employees now l f r c).committed = [] ∧
    (migrate_employees now l f r c).rolledBack = true ∧
    (migrate_employees now l f r c).loggedError = true := by
  cases f with
  | ok => exact absurd rfl hf
  | atFetch => exact ⟨rfl, rfl, rfl⟩
  | atInsert => exact ⟨rfl, rfl, rfl⟩

theorem migrate_customers_failed (now : Nat) (l : List MemberRow)
    (f : Failure) (r : Registry) (c : Nat) (hf : f ≠ .ok) :
    (migrate_customers now l f r c).committed = [] ∧
    (migrate_customers now l f r c).rolledBack = true ∧
    (migrate_customers now l f r c).loggedError = true := by
  cases f with
  | ok => exact absurd rfl hf
  | atFetch => exact ⟨rfl, rfl, rfl⟩
  | atInsert => exact ⟨rfl, rfl, rfl⟩

theorem migrate_products_failed (now : Nat) (l : List ProductRow)
    (f : Failure) (r : Registry) (c : Nat) (hf : f ≠ .ok) :
    (migrate_products now l f r c).committed = [] ∧
    (migrate_products now l f r c).rolledBack = true ∧
    (migrate_products now l f r c).loggedError = true := by
  cases f with
  | ok => exact absurd rfl hf
  | atFetch => exact ⟨rfl, rfl, rfl⟩
  | atInsert => exact ⟨rfl, rfl, rfl⟩

theorem migrate_invoices_failed (now : Nat) (l : List TransaksiRow)
    (f : Failure) (r : Registry) (c : Nat) (hf : f ≠ .ok) :
    (migrate_invoices now l f r c).committed = [] ∧
    (migrate_invoices now l f r c).rolledBack = true ∧
    (migrate_invoices now l f r c).loggedError = true := by
  cases f with
  | ok => exact absurd rfl hf
  | atFetch => exact ⟨rfl, rfl, rfl⟩
  | atInsert => exact ⟨rfl, rfl, rfl⟩

theorem migrate_invoice_items_failed (now : Nat) (l : List DetailRow)
    (ts : List String) (df ef : String → Bool) (f : Failure) (r : Registry)
    (c : Nat) (hf : f ≠ .ok) :
    (migrate_invoice_items now l ts df ef f r c).committed = [] ∧
    (migrate_invoice_items now l ts df ef f r c).rolledBack = true ∧
    (migrate_invoice_items now l ts df ef f r c).loggedError = true := by
  cases f with
  | ok => exact absurd rfl hf
  | atFetch => exact ⟨rfl, rfl, rfl⟩
  | atInsert => exact ⟨rfl, rfl, rfl⟩

theorem migrate_employees_seg (now : Nat) (l : List KaryawanRow) (f : Failure)
    (r : Registry) (c : Nat) :
    IdsSeg ((migrate_employees now l f r c).committed.map (·.id)) c
      (migrate_employees now l f r c).cnt ∧
    c ≤ (migrate_employees now l f r c).cnt := by
  cases f with
  | atFetch => exact ⟨idsSeg_nil c c, le_refl c⟩
  | atInsert =>
    simp only [migrate_employees, List.map_nil, employeesLoop_cnt]
    exact ⟨idsSeg_nil _ _, Nat.le_add_right c l.length⟩
  | ok =>
    simp only [migrate_employees, employeesLoop_cnt, employeesLoop_ids]
    exact ⟨idsSeg_range' c l.length, Nat.le_add_right c l.length⟩

theorem migrate_customers_seg (now : Nat) (l : List MemberRow) (f : Failure)
    (r : Registry) (c : Nat) :
    IdsSeg ((migrate_customers now l f r c).committed.map (·.id)) c
      (migrate_customers now l f r c).cnt ∧
    c ≤ (migrate_customers now l f r c).cnt := by
  cases f with
  | atFetch => exact ⟨idsSeg_nil c c, le_refl c⟩
  | atInsert =>
    simp only [migrate_customers, List.map_nil, customersLoop_cnt]
    exact ⟨idsSeg_nil _ _, Nat.le_add_right c l.length⟩
  | ok =>
    simp only [migrate_customers, customersLoop_cnt, customersLoop_ids]
    exact ⟨idsSeg_range' c l.length, Nat.le_add_right c l.length⟩

theorem migrate_products_seg (now : Nat) (l : List ProductRow) (f : Failure)
    (r : Registry) (c : Nat) :
    IdsSeg ((migrate_products now l f r c).committed.map (·.id)) c
      (migrate_products now l f r c).cnt ∧
    c ≤ (migrate_products now l f r c).cnt := by
  cases f with
  | atFetch => exact ⟨idsSeg_nil c c, le_refl c⟩
  | atInsert =>
    simp only [migrate_products, List.map_nil, productsLoop_cnt]
    exact ⟨idsSeg_nil _ _, Nat.le_add_right c l.length⟩
  | ok =>
    simp only [migrate_products, productsLoop_cnt, productsLoop_ids]
    exact ⟨idsSeg_range' c l.length, Nat.le_add_right c l.length⟩

theorem migrate_invoices_seg (now : Nat) (l : List TransaksiRow) (f : Failure)
    (r : Registry) (c : Nat) :
    IdsSeg ((migrate_invoices now l f r c).committed.map (·.id)) c
      (migrate_invoices now l f r c).cnt ∧
    c ≤ (migrate_invoices now l f r c).cnt := by
  cases f with
  | atFetch => exact ⟨idsSeg_nil c c, le_refl c⟩
  | atInsert =>
    simp only [migrate_invoices, List.map_nil, invoicesLoop_cnt]
    exact ⟨idsSeg_nil _ _, Nat.le_add_right c l.length⟩
  | ok =>
    simp only [migrate_invoices, invoicesLoop_cnt]
    exact ⟨by simpa [invoicesLoop_cnt] using invoicesLoop_idsSeg now l r c,
      Nat.le_add_right c l.length⟩

theorem migrate_invoice_items_seg (now : Nat) (l : List DetailRow)
    (ts : List String) (df ef : String → Bool) (f : Failure) (r : Registry)
    (c : Nat) :
    IdsSeg ((migrate_invoice_items now l ts df ef f r c).committed.map (·.id))
      c (c + l.length) := by
  cases f with
  | atFetch => exact idsSeg_nil _ _
  | atInsert => exact idsSeg_nil _ _
  | ok =>
    simpa [migrate_invoice_items] using invoiceItemsLoop_idsSeg now r l c

theorem migrate_employees_regInv (now : Nat) (l : List KaryawanRow)
    (f : Failure) (r : Registry) (c : Nat) (h : RegInv r c) :
    RegInv (migrate_employees now l f r c).reg
      (migrate_employees now l f r c).cnt := by
  cases f with
  | atFetch => exact h
  | atInsert => exact employeesLoop_regInv now l r c h
  | ok => exact employeesLoop_regInv now l r c h

theorem migrate_customers_regInv (now : Nat) (l : List MemberRow)
    (f : Failure) (r : Registry) (c : Nat) (h : RegInv r c) :
    RegInv (migrate_customers now l f r c).reg
      (migrate_customers now l f r c).cnt := by
  cases f with
  | atFetch => exact h
  | atInsert => exact customersLoop_regInv now l r c h
  | ok => exact customersLoop_regInv now l r c h

theorem migrate_products_regInv (now : Nat) (l : List ProductRow)
    (f : Failure) (r : Registry) (c : Nat) (h : RegInv r c) :
    RegInv (migrate_products now l f r c).reg
      (migrate_products now l f r c).cnt := by
  cases f with
  | atFetch => exact h
  | atInsert => exact productsLoop_regInv now l r c h
  | ok => exact productsLoop_regInv now l r c h

theorem migrate_invoices_regInv (now : Nat) (l : List TransaksiRow)
    (f : Failure) (r : Registry) (c : Nat) (h : RegInv r c) :
    RegInv (migrate_invoices now l f r c).reg
      (migrate_invoices now l f r c).cnt := by
  cases f with
  | atFetch => exact h
  | atInsert => exact invoicesLoop_regInv now l r c h
  | ok => exact invoicesLoop_regInv now l r c h

/-- The products transfer never writes `member` keys. -/
theorem migrate_products_reg_member (now : Nat) (l : List ProductRow)
    (f : Failure) (r : Registry) (c : Nat) (i : Nat) :
    (migrate_products now l f r c).reg (Key.member i) = r (Key.member i) := by
  cases f with
  | atFetch => rfl
  | atInsert => exact productsLoop_reg_other now l r c _ (by intro p _; simp)
  | ok => exact productsLoop_reg_other now l r c _ (by intro p _; simp)

/-- The invoices transfer never writes `prod` keys. -/
theorem migrate_invoices_reg_prod (now : Nat) (l : List TransaksiRow)
    (f : Failure) (r : Registry) (c : Nat) (i : Nat) :
    (migrate_invoices now l f r c).reg (Key.prod i) = r (Key.prod i) := by
  cases f with
  | atFetch => rfl
  | atInsert => exact invoicesLoop_reg_other now l r c _ (by intro t _; simp)
  | ok => exact invoicesLoop_reg_other now l r c _ (by intro t _; simp)

theorem employeesLoop_len (now : Nat) (l : List KaryawanRow) (r : Registry)
    (c : Nat) : (employeesLoop now l r c).1.length = l.length := by
  have h := congrArg List.length (employeesLoop_ids now l r c)
  simpa using h

theorem customersLoop_len (now : Nat) (l : List MemberRow) (r : Registry)
    (c : Nat) : (customersLoop now l r c).1.length = l.length := by
  have h := congrArg List.length (customersLoop_ids now l r c)
  simpa using h

theorem productsLoop_len (now : Nat) (l : List ProductRow) (r : Registry)
    (c : Nat) : (productsLoop now l r c).1.length = l.length := by
  have h := congrArg List.length (productsLoop_ids now l r c)
  simpa using h

/-! ## The claims -/

/-- Claim C1: for every run, each row of a non-dependent source table
(employees, customers, products) yields exactly one target row carrying a
freshly generated identifier distinct from every other generated identifier
(the committed identifiers are exactly the next `length` draws
`range' c length` of the supply, so they are pairwise distinct and distinct
from every identifier drawn before or after), and after that table's
transfer the Identifier Registry maps that row's source integer id (under
the table's tag) to that row's new identifier.  The source ids are primary
keys of their tables, hence pairwise distinct (the `Nodup` hypotheses);
`r`/`c` range over every state the transfer can start from. -/
theorem claim_C1 (now : Nat) (emps : List KaryawanRow) (mems : List MemberRow)
    (prods : List ProductRow) (r1 r2 r3 : Registry) (c1 c2 c3 : Nat)
    (h1 : (emps.map (·.id_karyawan)).Nodup)
    (h2 : (mems.map (·.id_member)).Nodup)
    (h3 : (prods.map (·.id_product)).Nodup) :
    ((migrate_employees now emps .ok r1 c1).committed.length = emps.length ∧
      (migrate_employees now emps .ok r1 c1).committed.map (·.id) =
        List.range' c1 emps.length ∧
      ∀ p ∈ emps.zip (migrate_employees now emps .ok r1 c1).committed,
        (migrate_employees now emps .ok r1 c1).reg (Key.emp p.1.id_karyawan) =
          some p.2.id) ∧
    ((migrate_customers now mems .ok r2 c2).committed.length = mems.length ∧
      (migrate_customers now mems .ok r2 c2).committed.map (·.id) =
        List.range' c2 mems.length ∧
      ∀ p ∈ mems.zip (migrate_customers now mems .ok r2 c2).committed,
        (migrate_customers now mems .ok r2 c2).reg (Key.member p.1.id_member) =
          some p.2.id) ∧
    ((migrate_products now prods .ok r3 c3).committed.length = prods.length ∧
      (migrate_products now prods .ok r3 c3).committed.map (·.id) =
        List.range' c3 prods.length ∧
      ∀ p ∈ prods.zip (migrate_products now prods .ok r3 c3).committed,
        (migrate_products now prods .ok r3 c3).reg (Key.prod p.1.id_product) =
          some p.2.id) := by
  refine ⟨⟨?_, ?_, ?_⟩, ⟨?_, ?_, ?_⟩, ⟨?_, ?_, ?_⟩⟩
  · exact employeesLoop_len now emps r1 c1
  · exact employeesLoop_ids now emps r1 c1
  · exact employeesLoop_zip now emps r1 c1 h1
  · exact customersLoop_len now mems r2 c2
  · exact customersLoop_ids now mems r2 c2
  · exact customersLoop_zip now mems r2 c2 h2
  · exact productsLoop_len now prods r3 c3
  · exact productsLoop_ids now prods r3 c3
  · exact productsLoop_zip now prods r3 c3 h3

/-- Witness for C1 at concrete one-row tables: the hypotheses hold and the
instantiated conclusion is obtained by applying `claim_C1` itself. -/
theorem claim_C1_witness :
    (([⟨3, "a", "a@x", "081"⟩] : List KaryawanRow).map (·.id_karyawan)).Nodup ∧
    (migrate_employees 0 [⟨3, "a", "a@x", "081"⟩] .ok emptyRegistry 0).committed.length = 1 :=
  ⟨by decide,
    (claim_C1 0 [⟨3, "a", "a@x", "081"⟩] [⟨4, "n", "082", "al"⟩]
      [⟨5, none, none, none, none, none, none, none⟩]
      emptyRegistry emptyRegistry emptyRegistry 0 0 0
      (by decide) (by decide) (by decide)).1.1⟩

/-- A transaction row referencing member 5, used on an empty registry where
member 5 has no mapping. -/
def cexTxn : TransaksiRow :=
  { id_transaksi := 1, id_member := 5, tanggal_transaksi := "2020-01-01",
    status_transaksi := none, total_pembelian := none,
    total_pembayaran := none, catatan := none, lokasi := none }

/-- Claim C2, counterexample: the claim says a transaction whose member has no
registry entry is skipped with *no identifier minted*.  On the single
unmapped transaction `cexTxn` the transfer indeed emits no row and adds no
registry entry, but the identifier supply advances from 0 to 1: line 191
(`inv_id = str(uuid.uuid4())`) runs before the lookup and the `continue`,
so an identifier *is* minted (and discarded).  This falsifies the
"mints no new identifier for it" conjunct. -/
theorem claim_C2_counterexample :
    (migrate_invoices 0 [cexTxn] .ok emptyRegistry 0).committed = [] ∧
    (migrate_invoices 0 [cexTxn] .ok emptyRegistry 0).reg (Key.txn 1) = none ∧
    (migrate_invoices 0 [cexTxn] .ok emptyRegistry 0).cnt = 1 ∧
    ¬ (migrate_invoices 0 [cexTxn] .ok emptyRegistry 0).cnt = 0 := by
  refine ⟨by decide, by decide, by decide, by decide⟩

/-- A second transaction row, referencing the unmapped member 99. -/
def cexTxnUnmapped : TransaksiRow :=
  { id_transaksi := 2, id_member := 99, tanggal_transaksi := "2020-01-02",
    status_transaksi := none, total_pembelian := none,
    total_pembayaran := none, catatan := none, lokasi := none }

/-- A transaction row referencing member 5, which `cexMixedReg` maps. -/
def cexTxnMapped : TransaksiRow :=
  { id_transaksi := 1, id_member := 5, tanggal_transaksi := "2020-01-01",
    status_transaksi := some "paid", total_pembelian := some 100,
    total_pembayaran := some 100, catatan := none, lokasi := none }

/-- A registry mapping member 5 (and nothing else), for mixed batches. -/
def cexMixedReg : Registry := rput emptyRegistry (Key.member 5) 0

/-- The invoices loop commits exactly one row per transaction whose member
mapping is present (member lookups are stable across the loop, which only
writes `txn` keys). -/
theorem invoicesLoop_committed_len (now : Nat) (l : List TransaksiRow) :
    ∀ r c, (invoicesLoop now l r c).1.length =
      (l.filter (fun t => (r (Key.member t.id_member)).isSome)).length := by
  induction l with
  | nil => intro r c; simp [invoicesLoop]
  | cons t0 rest ih =>
    intro r c
    simp only [invoicesLoop, List.filter_cons]
    cases hm : r (Key.member t0.id_member) with
    | none =>
      rw [if_neg (by simp [hm])]
      exact ih r (c + 1)
    | some cid =>
      rw [if_pos (by simp [hm])]
      simp only [List.length_cons]
      rw [ih (rput r (Key.txn t0.id_transaksi) c) (c + 1)]
      have hcong : rest.filter
          (fun t => ((rput r (Key.txn t0.id_transaksi) c)
            (Key.member t.id_member)).isSome) =
          rest.filter (fun t => (r (Key.member t.id_member)).isSome) := by
        apply List.filter_congr
        intro t _
        rw [rput_other (by simp)]
      rw [hcong]

/-- Every row the invoices loop emits originates from a transaction whose
member mapping was present in the incoming registry, and carries exactly
that registered customer identifier. -/
theorem invoicesLoop_emits_from_mapped (now : Nat) (l : List TransaksiRow) :
    ∀ r c, ∀ row ∈ (invoicesLoop now l r c).1,
      ∃ t ∈ l, ∃ idv, r (Key.member t.id_member) = some row.customer_id ∧
        row = mkInvoiceRow now idv row.customer_id t := by
  induction l with
  | nil => intro r c row hrow; simp [invoicesLoop] at hrow
  | cons t0 rest ih =>
    intro r c row hrow
    simp only [invoicesLoop] at hrow
    cases hm : r (Key.member t0.id_member) with
    | none =>
      rw [hm] at hrow
      rcases ih r (c + 1) row hrow with ⟨t, ht, idv, h1, h2⟩
      exact ⟨t, List.mem_cons_of_mem _ ht, idv, h1, h2⟩
    | some cid =>
      rw [hm] at hrow
      rcases List.mem_cons.mp hrow with hrow | hrow
      · subst hrow
        exact ⟨t0, List.mem_cons_self _ _, c, by simpa [mkInvoiceRow] using hm,
          rfl⟩
      · rcases ih _ (c + 1) row hrow with ⟨t, ht, idv, h1, h2⟩
        refine ⟨t, List.mem_cons_of_mem _ ht, idv, ?_, h2⟩
        rw [rput_other (by simp)] at h1
        exact h1

/-- The invoices loop writes the registry only at the `txn` keys of the
transactions whose member mapping is present: every other key is left
unchanged. -/
theorem invoicesLoop_reg_writes (now : Nat) (l : List TransaksiRow) :
    ∀ r c (k : Key), ¬ (invoicesLoop now l r c).2.1 k = r k →
      ∃ t ∈ l, (r (Key.member t.id_member)).isSome = true ∧
        k = Key.txn t.id_transaksi := by
  induction l with
  | nil => intro r c k h; simp [invoicesLoop] at h
  | cons t0 rest ih =>
    intro r c k h
    simp only [invoicesLoop] at h
    cases hm : r (Key.member t0.id_member) with
    | none =>
      rw [hm] at h
      rcases ih r (c + 1) k h with ⟨t, ht, h1, h2⟩
      exact ⟨t, List.mem_cons_of_mem _ ht, h1, h2⟩
    | some cid =>
      rw [hm] at h
      by_cases hk : k = Key.txn t0.id_transaksi
      · exact ⟨t0, List.mem_cons_self _ _, by rw [hm]; rfl, hk⟩
      · have hrk : rput r (Key.txn t0.id_transaksi) c k = r k := rput_other hk
        have h2 : ¬ (invoicesLoop now rest
            (rput r (Key.txn t0.id_transaksi) c) (c + 1)).2.1 k =
            rput r (Key.txn t0.id_transaksi) c k := by
          rw [hrk]
          exact h
        rcases ih _ (c + 1) k h2 with ⟨t, ht, h1, h3⟩
        refine ⟨t, List.mem_cons_of_mem _ ht, ?_, h3⟩
        rw [rput_other (by simp)] at h1
        exact h1

/-- Claim C2, amended: for every source transaction row whose referenced
member source id has no prior entry in the Identifier Registry, the invoice
transfer emits no target row for it and adds no registry entry for it, but
it *does* mint one fresh identifier for it and discards it.  Formalised
per-row over an arbitrary (mixed) batch: the committed rows number exactly
the member-mapped transactions and each originates from a member-mapped
transaction carrying its registered customer identifier (so an unmapped
row contributes no target row); the registry is written only at `txn` keys
of member-mapped transactions (so an unmapped row adds no entry); yet the
identifier supply advances once for *every* row, skipped ones included,
because line 191 mints the identifier before the lookup and the
`continue`. -/
theorem claim_C2_amended (now : Nat) (txns : List TransaksiRow)
    (r : Registry) (c : Nat) :
    (migrate_invoices now txns .ok r c).committed.length =
      (txns.filter (fun t => (r (Key.member t.id_member)).isSome)).length ∧
    (∀ row ∈ (migrate_invoices now txns .ok r c).committed,
      ∃ t ∈ txns, ∃ idv, r (Key.member t.id_member) = some row.customer_id ∧
        row = mkInvoiceRow now idv row.customer_id t) ∧
    (∀ k, ¬ (migrate_invoices now txns .ok r c).reg k = r k →
      ∃ t ∈ txns, (r (Key.member t.id_member)).isSome = true ∧
        k = Key.txn t.id_transaksi) ∧
    (migrate_invoices now txns .ok r c).cnt = c + txns.length := by
  refine ⟨?_, ?_, ?_, ?_⟩
  · exact invoicesLoop_committed_len now txns r c
  · exact invoicesLoop_emits_from_mapped now txns r c
  · exact invoicesLoop_reg_writes now txns r c
  · exact invoicesLoop_cnt now txns r c

/-- Witness for the amended C2 on a mixed batch: one mapped and one
unmapped transaction yield exactly one committed row, the counter still
advances twice, and the only registry write is the mapped transaction's
`txn` key (the hypothesis of the registry-write conjunct is discharged by
evaluation at `Key.txn 1`). -/
theorem claim_C2_amended_witness :
    (migrate_invoices 0 [cexTxnMapped, cexTxnUnmapped] .ok cexMixedReg 0).committed.length =
      ([cexTxnMapped, cexTxnUnmapped].filter
        (fun t => (cexMixedReg (Key.member t.id_member)).isSome)).length ∧
    (migrate_invoices 0 [cexTxnMapped, cexTxnUnmapped] .ok cexMixedReg 0).cnt = 0 + 2 ∧
    (∃ t ∈ [cexTxnMapped, cexTxnUnmapped],
      (cexMixedReg (Key.member t.id_member)).isSome = true ∧
      Key.txn 1 = Key.txn t.id_transaksi) :=
  ⟨(claim_C2_amended 0 [cexTxnMapped, cexTxnUnmapped] cexMixedReg 0).1,
    by
      have h := (claim_C2_amended 0 [cexTxnMapped, cexTxnUnmapped]
        cexMixedReg 0).2.2.2
      simpa using h,
    (claim_C2_amended 0 [cexTxnMapped, cexTxnUnmapped] cexMixedReg 0).2.2.1
      (Key.txn 1) (by decide)⟩

theorem migrate_employees_cnt (now : Nat) (l : List KaryawanRow) (f : Failure)
    (r : Registry) (c : Nat) (hf : f ≠ .atFetch) :
    (migrate_employees now l f r c).cnt = c + l.length := by
  cases f with
  | atFetch => exact absurd rfl hf
  | atInsert => exact employeesLoop_cnt now l r c
  | ok => exact employeesLoop_cnt now l r c

theorem migrate_customers_cnt (now : Nat) (l : List MemberRow) (f : Failure)
    (r : Registry) (c : Nat) (hf : f ≠ .atFetch) :
    (migrate_customers now l f r c).cnt = c + l.length := by
  cases f with
  | atFetch => exact absurd rfl hf
  | atInsert => exact customersLoop_cnt now l r c
  | ok => exact customersLoop_cnt now l r c

theorem migrate_products_cnt (now : Nat) (l : List ProductRow) (f : Failure)
    (r : Registry) (c : Nat) (hf : f ≠ .atFetch) :
    (migrate_products now l f r c).cnt = c + l.length := by
  cases f with
  | atFetch => exact absurd rfl hf
  | atInsert => exact productsLoop_cnt now l r c
  | ok => exact productsLoop_cnt now l r c

theorem migrate_invoices_cnt (now : Nat) (l : List TransaksiRow) (f : Failure)
    (r : Registry) (c : Nat) (hf : f ≠ .atFetch) :
    (migrate_invoices now l f r c).cnt = c + l.length := by
  cases f with
  | atFetch => exact absurd rfl hf
  | atInsert => exact invoicesLoop_cnt now l r c
  | ok => exact invoicesLoop_cnt now l r c

/-- Claim C3: throughout every run, each target identifier is generated
exactly once and dependent lookups only see fully populated parent tags.
Concretely: (a) the identifiers carried by all rows committed across the
five transfers of a run are pairwise distinct; (b) the registry the
invoices transfer consults agrees on every `member` key with the registry
as the customers transfer left it (the products transfer in between writes
only `prod` keys), and the registry the invoice-items transfer consults
agrees on every `prod` key with the registry as the products transfer left
it (the invoices transfer in between writes only `txn` keys) — and by the
sequential structure of `mainRun` the items transfer consults exactly the
invoices transfer's final registry for `txn` keys; (c) whenever a table's
fetch succeeded, its transfer drew exactly one fresh identifier per source
row (the supply advances by the table's length). -/
theorem claim_C3 (db : SourceDB) (o : Oracles) :
    ((runEmployees db o).committed.map (·.id) ++
      ((runCustomers db o).committed.map (·.id) ++
        ((runProducts db o).committed.map (·.id) ++
          ((runInvoices db o).committed.map (·.id) ++
            (runItems db o).committed.map (·.id))))).Nodup ∧
    (∀ i, (runProducts db o).reg (Key.member i) =
      (runCustomers db o).reg (Key.member i)) ∧
    (∀ i, (runInvoices db o).reg (Key.prod i) =
      (runProducts db o).reg (Key.prod i)) ∧
    (o.fEmployees ≠ .atFetch →
      (runEmployees db o).cnt = db.tbl_karyawan.length) ∧
    (o.fCustomers ≠ .atFetch →
      (runCustomers db o).cnt = (runEmployees db o).cnt + db.tbl_member.length) ∧
    (o.fProducts ≠ .atFetch →
      (runProducts db o).cnt = (runCustomers db o).cnt + db.tbl_product.length) ∧
    (o.fInvoices ≠ .atFetch →
      (runInvoices db o).cnt = (runProducts db o).cnt + db.tbl_transaksi.length) := by
  have s1 := migrate_employees_seg o.now db.tbl_karyawan o.fEmployees emptyRegistry 0
  have s2 := migrate_customers_seg o.now db.tbl_member o.fCustomers
    (runEmployees db o).reg (runEmployees db o).cnt
  have s3 := migrate_products_seg o.now db.tbl_product o.fProducts
    (runCustomers db o).reg (runCustomers db o).cnt
  have s4 := migrate_invoices_seg o.now db.tbl_transaksi o.fInvoices
    (runProducts db o).reg (runProducts db o).cnt
  have s5 := migrate_invoice_items_seg o.now db.tbl_detail_transaksi o.triggers
    o.disableFails o.enableFails o.fItems
    (runInvoices db o).reg (runInvoices db o).cnt
  rw [show migrate_customers o.now db.tbl_member o.fCustomers
      (runEmployees db o).reg (runEmployees db o).cnt = runCustomers db o from rfl] at s2
  rw [show migrate_products o.now db.tbl_product o.fProducts
      (runCustomers db o).reg (runCustomers db o).cnt = runProducts db o from rfl] at s3
  rw [show migrate_invoices o.now db.tbl_transaksi o.fInvoices
      (runProducts db o).reg (runProducts db o).cnt = runInvoices db o from rfl] at s4
  rw [show migrate_invoice_items o.now db.tbl_detail_transaksi o.triggers
      o.disableFails o.enableFails o.fItems
      (runInvoices db o).reg (runInvoices db o).cnt = runItems db o from rfl] at s5
  have s1b : IdsSeg ((runEmployees db o).committed.map (·.id)) 0
      (runEmployees db o).cnt ∧ 0 ≤ (runEmployees db o).cnt := s1
  constructor
  · have h45 := idsSeg_append s4.1 s5 s4.2 (Nat.le_add_right _ _)
    have h345 := idsSeg_append s3.1 h45 s3.2
      (le_trans s4.2 (Nat.le_add_right _ _))
    have h2345 := idsSeg_append s2.1 h345 s2.2
      (le_trans s3.2 (le_trans s4.2 (Nat.le_add_right _ _)))
    have h12345 := idsSeg_append s1b.1 h2345 s1b.2
      (le_trans s2.2 (le_trans s3.2 (le_trans s4.2 (Nat.le_add_right _ _))))
    exact idsSeg_nodup h12345
  refine ⟨?_, ?_, ?_, ?_, ?_, ?_⟩
  · intro i
    exact migrate_products_reg_member o.now db.tbl_product o.fProducts
      (runCustomers db o).reg (runCustomers db o).cnt i
  · intro i
    exact migrate_invoices_reg_prod o.now db.tbl_transaksi o.fInvoices
      (runProducts db o).reg (runProducts db o).cnt i
  · intro hf
    have h := migrate_employees_cnt o.now db.tbl_karyawan o.fEmployees
      emptyRegistry 0 hf
    simpa using h
  · intro hf
    exact migrate_customers_cnt o.now db.tbl_member o.fCustomers
      (runEmployees db o).reg (runEmployees db o).cnt hf
  · intro hf
    exact migrate_products_cnt o.now db.tbl_product o.fProducts
      (runCustomers db o).reg (runCustomers db o).cnt hf
  · intro hf
    exact migrate_invoices_cnt o.now db.tbl_transaksi o.fInvoices
      (runProducts db o).reg (runProducts db o).cnt hf

/-- A small concrete source database: one row per table, the dependent rows
referencing existing parents. -/
def wDB : SourceDB :=
  { tbl_karyawan := [⟨3, "a", "a@x", "081"⟩]
    tbl_member := [⟨5, "m", "082", "alamat"⟩]
    tbl_product := [⟨9, some "S1", some "P", none, some "pcs", some 10,
      some 20, some 4⟩]
    tbl_transaksi := [⟨1, 5, "2020-01-01", some "paid", some 100, some 100,
      none, none⟩]
    tbl_detail_transaksi := [⟨1, 9, "P", some 2, some 20, some 40⟩] }

/-- Oracles for a fully successful run with one trigger and no toggle
failures. -/
def wOracles : Oracles :=
  { connOk := true, fEmployees := .ok, fCustomers := .ok, fProducts := .ok,
    fInvoices := .ok, fItems := .ok, triggers := ["audit_trg"],
    disableFails := fun _ => false, enableFails := fun _ => false, now := 0 }

/-- Witness for C3 at the concrete run: the counter implications are
discharged at `.ok ≠ .atFetch`. -/
theorem claim_C3_witness :
    (Failure.ok ≠ Failure.atFetch) ∧
    (runEmployees wDB wOracles).cnt = wDB.tbl_karyawan.length ∧
    (runCustomers wDB wOracles).cnt =
      (runEmployees wDB wOracles).cnt + wDB.tbl_member.length :=
  ⟨by decide,
    (claim_C3 wDB wOracles).2.2.2.1 (by decide),
    (claim_C3 wDB wOracles).2.2.2.2.1 (by decide)⟩

/-- The registry maps two distinct keys of the same entity tag to distinct
identifiers, so reverse lookup from a target identifier recovers at most
one (tag, source id) pair. -/
def PerTagInjective (r : Registry) : Prop :=
  ∀ k1 k2 v, k1.tag = k2.tag → r k1 = some v → r k2 = some v → k1 = k2

theorem regInv_perTag {r : Registry} {c : Nat} (h : RegInv r c) :
    PerTagInjective r :=
  fun k1 k2 v _ h1 h2 => h.2 k1 k2 v h1 h2

theorem stateBefore_regInv (db : SourceDB) (o : Oracles) (i : Nat) :
    RegInv (stateBefore db o i).1 (stateBefore db o i).2 := by
  have h0 : RegInv emptyRegistry 0 := regInv_empty
  have h1 : RegInv (runEmployees db o).reg (runEmployees db o).cnt :=
    migrate_employees_regInv o.now db.tbl_karyawan o.fEmployees
      emptyRegistry 0 h0
  have h2 : RegInv (runCustomers db o).reg (runCustomers db o).cnt :=
    migrate_customers_regInv o.now db.tbl_member o.fCustomers
      (runEmployees db o).reg (runEmployees db o).cnt h1
  have h3 : RegInv (runProducts db o).reg (runProducts db o).cnt :=
    migrate_products_regInv o.now db.tbl_product o.fProducts
      (runCustomers db o).reg (runCustomers db o).cnt h2
  have h4 : RegInv (runInvoices db o).reg (runInvoices db o).cnt :=
    migrate_invoices_regInv o.now db.tbl_transaksi o.fInvoices
      (runProducts db o).reg (runProducts db o).cnt h3
  match i with
  | 0 => exact h0
  | 1 => exact h1
  | 2 => exact h2
  | 3 => exact h3
  | (n + 4) => exact h4

/-- Claim C4: every registry state reachable during a run is injective per
entity tag.  The reachable states are exactly the `midReg db o i k`: the
state after table `i`'s loop has processed its first `k` rows, starting
from the state the previous tables left (a loop over a list passes through
the loop states of its prefixes, registry writes survive rollbacks, and
the invoice-items loop never writes the registry).  In fact the proof
establishes injectivity across *all* keys, of which per-tag injectivity is
the special case stated. -/
theorem claim_C4 (db : SourceDB) (o : Oracles) (i k : Nat) :
    PerTagInjective (midReg db o i k) := by
  have hs := stateBefore_regInv db o i
  match i with
  | 0 =>
    exact regInv_perTag (employeesLoop_regInv o.now (db.tbl_karyawan.take k)
      _ _ hs)
  | 1 =>
    exact regInv_perTag (customersLoop_regInv o.now (db.tbl_member.take k)
      _ _ hs)
  | 2 =>
    exact regInv_perTag (productsLoop_regInv o.now (db.tbl_product.take k)
      _ _ hs)
  | 3 =>
    exact regInv_perTag (invoicesLoop_regInv o.now (db.tbl_transaksi.take k)
      _ _ hs)
  | (n + 4) => exact regInv_perTag hs

/-- Witness for C4 at a concrete mid-run state: after the customers loop of
the concrete run processed its row, `member 5` is registered; the two
lookup hypotheses are discharged by evaluation. -/
theorem claim_C4_witness : Key.member 5 = Key.member 5 :=
  claim_C4 wDB wOracles 1 1 (Key.member 5) (Key.member 5) 1 rfl
    (by decide) (by decide)

/-- Claim C5: once both connections are up, any table transfer exception is
handled inside that transfer: the table's transaction is rolled back and a
diagnostic is printed (`rolledBack`/`loggedError`), nothing is committed
for it, and the orchestrator is unaffected — all five transfers still run
in order, `close()` is still reached, and the process still exits 0 (no
table-level failure propagates out of `main`). -/
theorem claim_C5 (db : SourceDB) (o : Oracles) (h : o.connOk = true) :
    (mainRun db o).closed = true ∧
    (mainRun db o).exitCode = 0 ∧
    (mainRun db o).employees = some (runEmployees db o) ∧
    (mainRun db o).customers = some (runCustomers db o) ∧
    (mainRun db o).products = some (runProducts db o) ∧
    (mainRun db o).invoices = some (runInvoices db o) ∧
    (mainRun db o).invoice_items = some (runItems db o) ∧
    (o.fEmployees ≠ .ok → (runEmployees db o).rolledBack = true ∧
      (runEmployees db o).loggedError = true ∧
      (runEmployees db o).committed = []) ∧
    (o.fCustomers ≠ .ok → (runCustomers db o).rolledBack = true ∧
      (runCustomers db o).loggedError = true ∧
      (runCustomers db o).committed = []) ∧
    (o.fProducts ≠ .ok → (runProducts db o).rolledBack = true ∧
      (runProducts db o).loggedError = true ∧
      (runProducts db o).committed = []) ∧
    (o.fInvoices ≠ .ok → (runInvoices db o).rolledBack = true ∧
      (runInvoices db o).loggedError = true ∧
      (runInvoices db o).committed = []) ∧
    (o.fItems ≠ .ok → (runItems db o).rolledBack = true ∧
      (runItems db o).loggedError = true ∧
      (runItems db o).committed = []) := by
  refine ⟨by simp [mainRun, h], by simp [mainRun, h], by simp [mainRun, h],
    by simp [mainRun, h], by simp [mainRun, h], by simp [mainRun, h],
    by simp [mainRun, h], ?_, ?_, ?_, ?_, ?_⟩
  · intro hf
    have hh := migrate_employees_failed o.now db.tbl_karyawan o.fEmployees
      emptyRegistry 0 hf
    exact ⟨hh.2.1, hh.2.2, hh.1⟩
  · intro hf
    have hh := migrate_customers_failed o.now db.tbl_member o.fCustomers
      (runEmployees db o).reg (runEmployees db o).cnt hf
    exact ⟨hh.2.1, hh.2.2, hh.1⟩
  · intro hf
    have hh := migrate_products_failed o.now db.tbl_product o.fProducts
      (runCustomers db o).reg (runCustomers db o).cnt hf
    exact ⟨hh.2.1, hh.2.2, hh.1⟩
  · intro hf
    have hh := migrate_invoices_failed o.now db.tbl_transaksi o.fInvoices
      (runProducts db o).reg (runProducts db o).cnt hf
    exact ⟨hh.2.1, hh.2.2, hh.1⟩
  · intro hf
    have hh := migrate_invoice_items_failed o.now db.tbl_detail_transaksi
      o.triggers o.disableFails o.enableFails o.fItems
      (runInvoices db o).reg (runInvoices db o).cnt hf
    exact ⟨hh.2.1, hh.2.2, hh.1⟩

/-- Oracles for a run whose customers transfer fails at the bulk insert. -/
def wOraclesFail : Oracles := { wOracles with fCustomers := .atInsert }

/-- Witness for C5 on the concrete run with a failing customers transfer:
the connection hypothesis and the `≠ .ok` hypothesis are discharged
concretely. -/
theorem claim_C5_witness :
    (mainRun wDB wOraclesFail).closed = true ∧
    (runCustomers wDB wOraclesFail).rolledBack = true :=
  ⟨(claim_C5 wDB wOraclesFail rfl).1,
    ((claim_C5 wDB wOraclesFail rfl).2.2.2.2.2.2.2.2.1 (by decide)).1⟩

/-- Claim C6: the process exit status is 0 exactly when both initial
connections succeed — transfer failures never change it — and is 1 (the
`sys.exit(1)` in `connect`) when connection establishment fails. -/
theorem claim_C6 (db : SourceDB) (o : Oracles) :
    (mainRun db o).exitCode = (if o.connOk then 0 else 1) ∧
    ((mainRun db o).exitCode = 0 ↔ o.connOk = true) := by
  cases hc : o.connOk <;> simp [mainRun, hc]

/-- A registry with mappings for invoice `txn 1` and product `prod 9`, so
the items batch below is non-empty. -/
def cexItemsReg : Registry :=
  rput (rput emptyRegistry (Key.txn 1) 10) (Key.prod 9) 11

/-- A detail row referencing invoice 1 and product 9. -/
def wDetail : DetailRow :=
  { id_transaksi := 1, id_product := 9, nama_product := "P",
    qty := some 2, harga := some 20, subtotal := some 40 }

/-- Claim C7, counterexample: the claim says the bulk insert is never issued
while a non-system trigger is enabled *and* that a failure to toggle an
individual trigger is swallowed.  These conflict: when the single
`ALTER ... DISABLE TRIGGER` for trigger `audit_trg` fails (and is swallowed
by `except: pass`, lines 256–259), the trigger is still enabled, yet the
bulk insert is issued anyway — refuting the "never issued while such a
trigger is enabled" conjunct. -/
theorem claim_C7_counterexample :
    (migrate_invoice_items 0 [wDetail] ["audit_trg"] (fun _ => true)
      (fun _ => false) .ok cexItemsReg 0).insertIssued = true ∧
    (migrate_invoice_items 0 [wDetail] ["audit_trg"] (fun _ => true)
      (fun _ => false) .ok cexItemsReg 0).enabledAtInsert "audit_trg" = true ∧
    (migrate_invoice_items 0 [wDetail] ["audit_trg"] (fun _ => true)
      (fun _ => false) .ok cexItemsReg 0).rolledBack = false := by
  refine ⟨by decide, by decide, by decide⟩

/-- Claim C7, amended: in the invoice-line-item transfer, deferred constraint
checking is enabled for the transaction; each non-system trigger on the
destination table whose disable command succeeds is disabled before the
bulk insert, and each whose enable command succeeds is re-enabled after
it; a failure to toggle any individual trigger is swallowed and never
fails the transfer.  (In particular, when every toggle succeeds, no
non-system trigger is enabled when the bulk insert is issued, and all are
enabled again after the transfer.)  The unqualified "never issued while
enabled" and "afterwards enabled again" of the original claim hold only
for the triggers whose toggles succeed. -/
theorem claim_C7_amended (now : Nat) (details : List DetailRow)
    (triggers : List String) (df ef : String → Bool) (r : Registry)
    (c : Nat) :
    (migrate_invoice_items now details triggers df ef .ok r c).constraintsDeferred = true ∧
    (migrate_invoice_items now details triggers df ef .ok r c).rolledBack = false ∧
    (migrate_invoice_items now details triggers df ef .ok r c).loggedError = false ∧
    (∀ t ∈ triggers, df t = false →
      (migrate_invoice_items now details triggers df ef .ok r c).enabledAtInsert t = false) ∧
    (∀ t ∈ triggers, ef t = false →
      (migrate_invoice_items now details triggers df ef .ok r c).enabledAfter t = true) := by
  refine ⟨rfl, rfl, rfl, ?_, ?_⟩
  · intro t ht hdf
    exact disableTriggersLoop_mem df triggers _ t ht hdf
  · intro t ht hef
    exact enableTriggersLoop_mem ef triggers _ t ht hef

/-- Witness for the amended C7: with one trigger and no toggle failures,
the trigger is disabled at insert time and enabled again afterwards. -/
theorem claim_C7_amended_witness :
    (migrate_invoice_items 0 [wDetail] ["audit_trg"] (fun _ => false)
      (fun _ => false) .ok cexItemsReg 0).enabledAtInsert "audit_trg" = false ∧
    (migrate_invoice_items 0 [wDetail] ["audit_trg"] (fun _ => false)
      (fun _ => false) .ok cexItemsReg 0).enabledAfter "audit_trg" = true :=
  ⟨(claim_C7_amended 0 [wDetail] ["audit_trg"] (fun _ => false)
      (fun _ => false) cexItemsReg 0).2.2.2.1 "audit_trg" (by decide) rfl,
    (claim_C7_amended 0 [wDetail] ["audit_trg"] (fun _ => false)
      (fun _ => false) cexItemsReg 0).2.2.2.2 "audit_trg" (by decide) rfl⟩

/-- Claim C8: table-level rollback is not atomic with the Identifier
Registry.  When the customers transfer's bulk insert raises, the
transaction is rolled back — nothing is committed — yet every registry
entry written during the failed transfer's transform loop survives, and a
subsequent invoices transfer will emit rows whose `customer_id` is such a
surviving identifier, which is not among the (empty set of) committed
customer identifiers. -/
theorem claim_C8 (now : Nat) (mems : List MemberRow)
    (txns : List TransaksiRow) (r : Registry) (c : Nat) :
    (migrate_customers now mems .atInsert r c).committed = [] ∧
    (migrate_customers now mems .atInsert r c).rolledBack = true ∧
    (∀ m ∈ mems, ∃ v,
      (migrate_customers now mems .atInsert r c).reg (Key.member m.id_member)
        = some v) ∧
    (∀ t ∈ txns, ∀ v,
      (migrate_customers now mems .atInsert r c).reg (Key.member t.id_member)
        = some v →
      ∃ row ∈ (migrate_invoices now txns .ok
          (migrate_customers now mems .atInsert r c).reg
          (migrate_customers now mems .atInsert r c).cnt).committed,
        row.customer_id = v ∧ row.invoice_number = t.id_transaksi ∧
        v ∉ (migrate_customers now mems .atInsert r c).committed.map (·.id)) := by
  refine ⟨rfl, rfl, ?_, ?_⟩
  · intro m hm
    exact customersLoop_reg_mem now mems r c m hm
  · intro t ht v hv
    rcases invoicesLoop_emits now txns
      (migrate_customers now mems .atInsert r c).reg
      (migrate_customers now mems .atInsert r c).cnt t ht v hv with
      ⟨row, hrow, h1, h2⟩
    refine ⟨row, hrow, h1, h2, ?_⟩
    rw [show (migrate_customers now mems Failure.atInsert r c).committed
      = [] from rfl]
    simp

/-- The single member of the concrete runs. -/
def wMem : MemberRow :=
  { id_member := 5
    nama_member := "m"
    nomor_telepon := "082"
    alamat := "al" }

/-- The single transaction of the concrete runs, referencing member 5 and
marked paid. -/
def wTxn : TransaksiRow :=
  { id_transaksi := 1, id_member := 5, tanggal_transaksi := "2020-01-01",
    status_transaksi := some "paid", total_pembelian := some 100,
    total_pembayaran := some 100, catatan := none, lokasi := none }

/-- Witness for C8: the concrete failed customers transfer commits nothing
yet leaves `member 5 ↦ 0` in the registry, and the subsequent invoices
transfer emits a row referencing identifier 0. -/
theorem claim_C8_witness :
    (migrate_customers 0 [wMem] .atInsert emptyRegistry 0).committed = [] ∧
    (∃ row ∈ (migrate_invoices 0 [wTxn] .ok
        (migrate_customers 0 [wMem] .atInsert emptyRegistry 0).reg
        (migrate_customers 0 [wMem] .atInsert emptyRegistry 0).cnt).committed,
      row.customer_id = 0 ∧ row.invoice_number = wTxn.id_transaksi ∧
      (0 : Nat) ∉ (migrate_customers 0 [wMem] .atInsert emptyRegistry 0).committed.map (·.id)) :=
  ⟨(claim_C8 0 [wMem] [wTxn] emptyRegistry 0).1,
    (claim_C8 0 [wMem] [wTxn] emptyRegistry 0).2.2.2 wTxn (by decide) 0
      (by decide)⟩

theorem pyOrInt_falsy (o : Option Int) (d : Int)
    (h : o = none ∨ o = some 0) : pyOrInt o d = d := by
  rcases h with h | h <;> rw [h] <;> simp [pyOrInt]

theorem pyOrInt_truthy (q d : Int) (h : ¬ q = 0) : pyOrInt (some q) d = q := by
  simp [pyOrInt, h]

/-- Claim C9: in the line-item transform the target quantity is `int(qty)`
for a truthy source qty and 1 otherwise — a NULL or zero quantity becomes
1 — whereas a NULL or zero unit price or subtotal becomes 0; and in the
invoice transform a NULL or zero `total_pembelian` makes both `items_total`
and `grand_total` 0.  Stated over every row the two transfers commit. -/
theorem claim_C9 (now : Nat) (details : List DetailRow) (ts : List String)
    (df ef : String → Bool) (r : Registry) (c : Nat)
    (txns : List TransaksiRow) (r2 : Registry) (c2 : Nat) :
    (∀ row ∈ (migrate_invoice_items now details ts df ef .ok r c).committed,
      ∃ d ∈ details,
        row.product_name = d.nama_product ∧
        ((d.qty = none ∨ d.qty = some 0) → row.quantity = 1) ∧
        (∀ q, d.qty = some q → ¬ q = 0 → row.quantity = q) ∧
        ((d.harga = none ∨ d.harga = some 0) → row.unit_price = 0) ∧
        (∀ q, d.harga = some q → ¬ q = 0 → row.unit_price = q) ∧
        ((d.subtotal = none ∨ d.subtotal = some 0) → row.total_price = 0) ∧
        (∀ q, d.subtotal = some q → ¬ q = 0 → row.total_price = q)) ∧
    (∀ row ∈ (migrate_invoices now txns .ok r2 c2).committed,
      ∃ t ∈ txns,
        row.invoice_number = t.id_transaksi ∧
        ((t.total_pembelian = none ∨ t.total_pembelian = some 0) →
          row.items_total = 0 ∧ row.grand_total = 0) ∧
        (∀ q, t.total_pembelian = some q → ¬ q = 0 →
          row.items_total = q ∧ row.grand_total = q)) := by
  constructor
  · intro row hrow
    rcases invoiceItemsLoop_mem now r details c row hrow with
      ⟨d, hd, idv, iv, pv, he⟩
    subst he
    refine ⟨d, hd, rfl, ?_, ?_, ?_, ?_, ?_, ?_⟩
    · intro h
      simp [mkInvoiceItemRow, pyOrInt_falsy d.qty 1 h]
    · intro q hq hq0
      simp [mkInvoiceItemRow, hq, pyOrInt_truthy q 1 hq0]
    · intro h
      simp [mkInvoiceItemRow, pyOrInt_falsy d.harga 0 h]
    · intro q hq hq0
      simp [mkInvoiceItemRow, hq, pyOrInt_truthy q 0 hq0]
    · intro h
      simp [mkInvoiceItemRow, pyOrInt_falsy d.subtotal 0 h]
    · intro q hq hq0
      simp [mkInvoiceItemRow, hq, pyOrInt_truthy q 0 hq0]
  · intro row hrow
    rcases invoicesLoop_mem now txns r2 c2 row hrow with ⟨t, ht, idv, cid, he⟩
    subst he
    refine ⟨t, ht, rfl, ?_, ?_⟩
    · intro h
      constructor <;> simp [mkInvoiceRow, pyOrInt_falsy t.total_pembelian 0 h]
    · intro q hq hq0
      constructor <;> simp [mkInvoiceRow, hq, pyOrInt_truthy q 0 hq0]

/-- Witness for C9: the concrete committed line item for `wDetail`
(qty = 2, truthy) has quantity 2, by applying `claim_C9` at the concrete
transfer and discharging the membership hypothesis by evaluation. -/
theorem claim_C9_witness :
    (mkInvoiceItemRow 0 0 10 11 wDetail).quantity = 2 := by
  have h := (claim_C9 0 [wDetail] ["audit_trg"] (fun _ => false)
      (fun _ => false) cexItemsReg 0 [] emptyRegistry 0).1
    (mkInvoiceItemRow 0 0 10 11 wDetail) (by decide)
  rcases h with ⟨d, hd, _, _, hq, _⟩
  have hd2 : d = wDetail := by simpa using hd
  subst hd2
  exact hq 2 rfl (by decide)

/-- Claim C10: every committed invoice has constant status `"completed"`, and
its payment status is `"paid"` exactly when the source row's
`status_transaksi` is the literal string `'paid'` (NULL or any other value,
spelling or casing gives `"unpaid"`). -/
theorem claim_C10 (now : Nat) (txns : List TransaksiRow) (r : Registry)
    (c : Nat) :
    ∀ row ∈ (migrate_invoices now txns .ok r c).committed,
      row.status = "completed" ∧
      ∃ t ∈ txns,
        row.invoice_number = t.id_transaksi ∧
        (row.payment_status = "paid" ↔ t.status_transaksi = some "paid") ∧
        (¬ t.status_transaksi = some "paid" → row.payment_status = "unpaid") := by
  intro row hrow
  rcases invoicesLoop_mem now txns r c row hrow with ⟨t, ht, idv, cid, he⟩
  subst he
  refine ⟨rfl, t, ht, rfl, ?_, ?_⟩
  · by_cases hp : t.status_transaksi = some "paid" <;>
      simp [mkInvoiceRow, hp]
  · intro hp
    simp [mkInvoiceRow, hp]

/-- Witness for C10: the concrete committed invoice for `wTxn`
(status_transaksi = 'paid') has payment status `"paid"`, via `claim_C10`
with the membership hypothesis discharged by evaluation. -/
theorem claim_C10_witness :
    (mkInvoiceRow 0 0 0 wTxn).payment_status = "paid" := by
  have h := claim_C10 0 [wTxn] (rput emptyRegistry (Key.member 5) 0) 0
    (mkInvoiceRow 0 0 0 wTxn) (by decide)
  rcases h with ⟨_, t, ht, _, hiff, _⟩
  have ht2 : t = wTxn := by simpa using ht
  subst ht2
  exact hiff.mpr rfl
